import Mathlib

/-!
Verification development for the ml-cpp excerpt.

Shallow embedding of `lib/maths/CKMeansOnline1d.cc`, `lib/model/CDataClassifier.cc`,
`lib/config/CFieldStatistics.cc` and of the seasonal component declared in
`include/maths/CSeasonalComponent.h`.

Conventions of the embedding:

* a C++ `double` is a rational number (`ℚ`): the properties below are algebraic
  and order properties of the computed expressions, not rounding properties;
* an in/out reference argument is passed in and returned next to the `bool`
  result of the method;
* functions, constants and types that the translated code uses but that are
  declared in files outside the excerpt are parameters of the embedding.
-/

namespace ml

/-! ## State documents -/

namespace core

/-- One element of a state document: its tag name, its leaf value and the
elements of its sub-level. -/
inductive StateNode where
  | node (name : String) (value : String) (subLevel : List StateNode)

/-- The tag name of a document element. -/
def StateNode.name : StateNode → String
  | .node n _ _ => n

/-- The leaf value of a document element. -/
def StateNode.value : StateNode → String
  | .node _ v _ => v

/-- A restore traverser positioned on an element of one level of a state
document: `current` is the element `name()` and `value()` read, `rest` are the
elements `next()` will move to, in order. -/
structure CStateRestoreTraverser where
  current : StateNode
  rest : List StateNode

/-- Tag name at the traverser's position (`traverser.name()`). -/
def CStateRestoreTraverser.name (t : CStateRestoreTraverser) : String :=
  t.current.name

/-- Leaf value at the traverser's position (`traverser.value()`). -/
def CStateRestoreTraverser.value (t : CStateRestoreTraverser) : String :=
  t.current.value

/-- The elements of the level the traverser walks, from its position on. -/
def CStateRestoreTraverser.level (t : CStateRestoreTraverser) : List StateNode :=
  t.current :: t.rest

end core

/-! ## `CKMeansOnline1d` -/

namespace maths

/-- The quantities of a `CNormalMeanPrecConjugate` prior that `CKMeansOnline1d`
reads through its accessors. The class itself is declared outside the excerpt. -/
structure CNormalMeanPrecConjugate where
  marginalLikelihoodMean : ℚ
  marginalLikelihoodVariance : ℚ
  numberSamples : ℚ
deriving DecidableEq

/-- What `CKMeansOnline1d.cc` takes from files outside the excerpt: the bit masks
of `maths_t::EFloatingPointErrorStatus`, `core::constants::LOG_MIN_DOUBLE`, the
C library functions and the two prior methods it calls. The weight style
arguments of `jointLogMarginalLikelihood` are the constants `COUNT` and
`SINGLE_UNIT` at its only call site and are not represented. -/
structure MathsEnv where
  E_FpOverflowed : ℕ
  E_FpFailed : ℕ
  LOG_MIN_DOUBLE : ℚ
  log : ℚ → ℚ
  exp : ℚ → ℚ
  sqrt : ℚ → ℚ
  jointLogMarginalLikelihood : CNormalMeanPrecConjugate → List ℚ → ℕ × ℚ
  sampleMarginalLikelihood : CNormalMeanPrecConjugate → ℕ → List ℚ

namespace detail

/-- The call `SNormalMeanLess()(lhs, rhs)` with a normal on the left and a
`double` on the right, the overload `std::lower_bound` uses. -/
def SNormalMeanLess (lhs : CNormalMeanPrecConjugate) (rhs : ℚ) : Bool :=
  decide (lhs.marginalLikelihoodMean < rhs)

/-- Get the log of the likelihood that `sample` is from `normal`. -/
def logLikelihoodFromCluster (env : MathsEnv) (sample : List ℚ)
    (normal : CNormalMeanPrecConjugate) : ℚ :=
  let r := env.jointLogMarginalLikelihood normal sample
  let status := r.1
  let likelihood := r.2
  if status &&& env.E_FpFailed ≠ 0 then
    env.LOG_MIN_DOUBLE - 1
  else if status &&& env.E_FpOverflowed ≠ 0 then
    likelihood
  else
    likelihood + env.log normal.numberSamples

end detail

/-- The constant `HARD_ASSIGNMENT_THRESHOLD = 0.01`. -/
def HARD_ASSIGNMENT_THRESHOLD : ℚ := 1 / 100

/-- The persistence tag of a cluster, `CLUSTER_TAG("a")`. -/
def CLUSTER_TAG : String := "a"

/-- The loop of `std::lower_bound` over the index range `[first, first + len)`:
`fuel` bounds `len`, so the loop always ends with `len = 0`. -/
def lowerBoundLoop {α : Type} (xs : List α) (less : α → Bool) :
    (fuel first len : ℕ) → len ≤ fuel → first + len ≤ xs.length →
    {i : ℕ // i ≤ xs.length}
  | 0, first, _, _, hb => ⟨first, by omega⟩
  | fuel + 1, first, len, hf, hb =>
    if hlen : 0 < len then
      let half := len / 2
      let middle := first + half
      have hm : middle < xs.length := by
        have : len / 2 < len := Nat.div_lt_self hlen (by decide)
        omega
      if less (xs.get ⟨middle, hm⟩) then
        lowerBoundLoop xs less fuel (middle + 1) (len - half - 1)
          (by omega) (by have : len / 2 < len := Nat.div_lt_self hlen (by decide); omega)
      else
        lowerBoundLoop xs less fuel first half
          (by have : len / 2 < len := Nat.div_lt_self hlen (by decide); omega)
          (by have : len / 2 < len := Nat.div_lt_self hlen (by decide); omega)
    else
      ⟨first, by omega⟩

/-- The call `std::lower_bound(xs.begin(), xs.end(), value, comp)` as the index
of the returned iterator, with `less x` standing for `comp(x, value)`. -/
def lower_bound {α : Type} (xs : List α) (less : α → Bool) : {i : ℕ // i ≤ xs.length} :=
  lowerBoundLoop xs less xs.length 0 xs.length (Nat.le_refl _) (by omega)

/-- The clusterer: its only member is the vector `m_Clusters`. -/
structure CKMeansOnline1d where
  m_Clusters : List CNormalMeanPrecConjugate
deriving DecidableEq

namespace CKMeansOnline1d

/-- The number of clusters, `m_Clusters.size()`. -/
def numberClusters (self : CKMeansOnline1d) : ℕ :=
  self.m_Clusters.length

/-- Whether the cluster `index` exists. -/
def hasCluster (self : CKMeansOnline1d) (index : ℕ) : Bool :=
  decide (index < self.m_Clusters.length)

/-- The method `clusterCentre(index, result)`: the returned pair is the `bool`
result and the value of `result` afterwards. The outcome is `none` if the
method reads `m_Clusters[index]` out of range. -/
def clusterCentre (self : CKMeansOnline1d) (index : ℕ) (result : ℚ) : Option (Bool × ℚ) :=
  if ¬ self.hasCluster index then
    some (false, result)
  else
    match self.m_Clusters[index]? with
    | none => none
    | some c => some (true, c.marginalLikelihoodMean)

/-- The method `clusterSpread(index, result)`, as `clusterCentre`. -/
def clusterSpread (env : MathsEnv) (self : CKMeansOnline1d) (index : ℕ) (result : ℚ) :
    Option (Bool × ℚ) :=
  if ¬ self.hasCluster index then
    some (false, result)
  else
    match self.m_Clusters[index]? with
    | none => none
    | some c => some (true, env.sqrt c.marginalLikelihoodVariance)

/-- The method `sample(index, numberSamples, samples)`, as `clusterCentre`. -/
def sample (env : MathsEnv) (self : CKMeansOnline1d) (index : ℕ) (numberSamples : ℕ)
    (samples : List ℚ) : Option (Bool × List ℚ) :=
  if ¬ self.hasCluster index then
    some (false, samples)
  else
    match self.m_Clusters[index]? with
    | none => none
    | some c => some (true, env.sampleMarginalLikelihood c numberSamples)

/-- The method `cluster(point, result, count)`: the value of `result` afterwards.
The value passed in is dropped by `result.clear()`. -/
def cluster (env : MathsEnv) (self : CKMeansOnline1d) (point : ℚ) (_result : List (ℕ × ℚ))
    (count : ℚ) : List (ℕ × ℚ) :=
  if self.m_Clusters.isEmpty then
    []
  else
    let rightCluster := lower_bound self.m_Clusters (fun c => detail.SNormalMeanLess c point)
    if hend : rightCluster.1 = self.m_Clusters.length then
      [(rightCluster.1 - 1, count)]
    else if hbegin : rightCluster.1 = 0 then
      [(0, count)]
    else
      let leftCluster := rightCluster.1 - 1
      have hr : rightCluster.1 < self.m_Clusters.length :=
        lt_of_le_of_ne rightCluster.2 hend
      have hl : leftCluster < self.m_Clusters.length := by
        show rightCluster.1 - 1 < self.m_Clusters.length
        omega
      let sample : List ℚ := [point]
      let likelihoodLeft :=
        detail.logLikelihoodFromCluster env sample (self.m_Clusters.get ⟨leftCluster, hl⟩)
      let likelihoodRight :=
        detail.logLikelihoodFromCluster env sample (self.m_Clusters.get ⟨rightCluster.1, hr⟩)
      let renormalizer :=
        if likelihoodLeft < likelihoodRight then likelihoodRight else likelihoodLeft
      let pLeft₀ := env.exp (likelihoodLeft - renormalizer)
      let pRight₀ := env.exp (likelihoodRight - renormalizer)
      let normalizer := pLeft₀ + pRight₀
      let pLeft := pLeft₀ / normalizer
      let pRight := pRight₀ / normalizer
      if pLeft < HARD_ASSIGNMENT_THRESHOLD * pRight then
        [(rightCluster.1, count)]
      else if pRight < HARD_ASSIGNMENT_THRESHOLD * pLeft then
        [(leftCluster, count)]
      else
        [(leftCluster, count * pLeft), (rightCluster.1, count * pRight)]

/-- The loop of `acceptRestoreTraverser` from the element `cur` on: an element
tagged `CLUSTER_TAG` is restored as a normal by `restoreNormal` (the constructor
`CNormalMeanPrecConjugate(params, traverser)`, outside the excerpt) and pushed
back; the loop ends when `traverser.next()` fails. -/
def restoreLoop {P : Type} (restoreNormal : P → core.StateNode → CNormalMeanPrecConjugate)
    (params : P) (cur : core.StateNode) (rest : List core.StateNode)
    (self : CKMeansOnline1d) : Bool × CKMeansOnline1d :=
  let self1 : CKMeansOnline1d :=
    if cur.name = CLUSTER_TAG then
      { m_Clusters := self.m_Clusters ++ [restoreNormal params cur] }
    else
      self
  match rest with
  | [] => (true, self1)
  | n :: rest1 => restoreLoop restoreNormal params n rest1 self1

/-- The method `acceptRestoreTraverser(params, traverser)`: the `bool` result
and the clusterer afterwards. -/
def acceptRestoreTraverser {P : Type}
    (restoreNormal : P → core.StateNode → CNormalMeanPrecConjugate) (params : P)
    (traverser : core.CStateRestoreTraverser) (self : CKMeansOnline1d) :
    Bool × CKMeansOnline1d :=
  restoreLoop restoreNormal params traverser.current traverser.rest self

/-- Whether `acceptRestoreTraverser` recognises a tag name: it compares the
name with `CLUSTER_TAG` only. -/
def knownTag (name : String) : Bool :=
  decide (name = CLUSTER_TAG)

/-- The loop of `acceptRestoreTraverser` written as a recursion over the list of
the elements it visits; `clusters_restoreLoop_eq_restoreList` relates the two. -/
def restoreList {P : Type} (restoreNormal : P → core.StateNode → CNormalMeanPrecConjugate)
    (params : P) : List core.StateNode → CKMeansOnline1d → Bool × CKMeansOnline1d
  | [], self => (true, self)
  | e :: es, self =>
    if e.name = CLUSTER_TAG then
      restoreList restoreNormal params es
        { m_Clusters := self.m_Clusters ++ [restoreNormal params e] }
    else
      restoreList restoreNormal params es self

end CKMeansOnline1d

end maths

/-! ## `CDataClassifier` -/

namespace model

/-- The tag of the is-integer flag, `IS_INTEGER_TAG{"a"}`. -/
def IS_INTEGER_TAG : String := "a"

/-- The tag of the is-non-negative flag, `IS_NON_NEGATIVE_TAG{"b"}`. -/
def IS_NON_NEGATIVE_TAG : String := "b"

/-- The classifier: its members are the two flags. -/
structure CDataClassifier where
  m_IsInteger : Bool
  m_IsNonNegative : Bool
deriving DecidableEq

namespace CDataClassifier

/-- The accessor `isInteger()`. -/
def isInteger (self : CDataClassifier) : Bool := self.m_IsInteger

/-- The accessor `isNonNegative()`. -/
def isNonNegative (self : CDataClassifier) : Bool := self.m_IsNonNegative

/-- The loop of `acceptRestoreTraverser` from the element `cur` on.

`RESTORE_BOOL(tag, target)` is a macro of `core/RestoreMacros.h`, outside the
excerpt; it is taken as: when `name == tag`, parse `traverser.value()` as an
`int` with `stringToInt` (`CStringUtils::stringToType`, a parameter), `return
false` if that fails, else set `target = (value != 0)` and `continue`. -/
def restoreLoop (stringToInt : String → Option ℤ) (cur : core.StateNode)
    (rest : List core.StateNode) (self : CDataClassifier) : Bool × CDataClassifier :=
  let continueWith (self1 : CDataClassifier) : Bool × CDataClassifier :=
    match rest with
    | [] => (true, self1)
    | n :: rest1 => restoreLoop stringToInt n rest1 self1
  if cur.name = IS_INTEGER_TAG then
    match stringToInt cur.value with
    | none => (false, self)
    | some value => continueWith { self with m_IsInteger := decide (value ≠ 0) }
  else if cur.name = IS_NON_NEGATIVE_TAG then
    match stringToInt cur.value with
    | none => (false, self)
    | some value => continueWith { self with m_IsNonNegative := decide (value ≠ 0) }
  else
    continueWith self

/-- The method `acceptRestoreTraverser(traverser)`: the `bool` result and the
classifier afterwards. -/
def acceptRestoreTraverser (stringToInt : String → Option ℤ)
    (traverser : core.CStateRestoreTraverser) (self : CDataClassifier) :
    Bool × CDataClassifier :=
  restoreLoop stringToInt traverser.current traverser.rest self

/-- Whether `acceptRestoreTraverser` recognises a tag name: it compares the
name with `IS_INTEGER_TAG` and `IS_NON_NEGATIVE_TAG` only. -/
def knownTag (name : String) : Bool :=
  decide (name = IS_INTEGER_TAG) || decide (name = IS_NON_NEGATIVE_TAG)

/-- The loop of `acceptRestoreTraverser` written as a recursion over the list of
the elements it visits; `flags_restoreLoop_eq_restoreList` relates the two. -/
def restoreList (stringToInt : String → Option ℤ) :
    List core.StateNode → CDataClassifier → Bool × CDataClassifier
  | [], self => (true, self)
  | e :: es, self =>
    if e.name = IS_INTEGER_TAG then
      match stringToInt e.value with
      | none => (false, self)
      | some value =>
        restoreList stringToInt es { self with m_IsInteger := decide (value ≠ 0) }
    else if e.name = IS_NON_NEGATIVE_TAG then
      match stringToInt e.value with
      | none => (false, self)
      | some value =>
        restoreList stringToInt es { self with m_IsNonNegative := decide (value ≠ 0) }
    else
      restoreList stringToInt es self

/-- A `stringToType<int>` for the two strings `acceptPersistInserter` writes
(`static_cast<int>` of a `bool`), used to evaluate restores on concrete
documents. -/
def parseFlag (s : String) : Option ℤ :=
  if s = "0" then some 0 else if s = "1" then some 1 else none

end CDataClassifier

end model

/-! ## The seasonal component

`include/maths/CSeasonalComponent.h` declares `CSeasonalComponent`; the bodies of
its member functions and the adaptive bucketing, the splines and the random
number generator it is built from are defined in files outside the excerpt.
The definitions of this section follow the written specification of the
component. What the specification leaves open (the numerical fitting formulas,
the error statistics that drive refinement, the spline fit, the hash function
of the checksum, the text form of a number) is a field of `SeasonalEnv`, so
every statement below holds for every choice of these. -/

namespace maths

/-- Modelled from the spec: the regression of a bucket (data model, BucketModel):
intercept, slope, the symmetric 2x2 covariance of the two coefficients and the
effective weight. The class is defined outside the excerpt. -/
structure Regression where
  interceptMean : ℚ
  slope : ℚ
  varIntercept : ℚ
  covInterceptSlope : ℚ
  varSlope : ℚ
  effectiveWeight : ℚ
deriving DecidableEq

/-- Modelled from the spec: the residual variance accumulator of a bucket (data
model, BucketModel). The class is defined outside the excerpt. -/
structure ResidualVariance where
  mean : ℚ
  variance : ℚ
  effectiveWeight : ℚ
deriving DecidableEq

/-- Modelled from the spec: one bucket of the adaptive bucketing (data model,
BucketModel): the phase interval `[phaseStart, phaseEnd)`, the regression, the
residual variance and the time of the last update. The bucketing class is
defined outside the excerpt. -/
structure BucketModel where
  phaseStart : ℚ
  phaseEnd : ℚ
  regression : Regression
  residualVariance : ResidualVariance
  lastUpdateTime : ℚ
deriving DecidableEq

/-- Modelled from the spec: the adaptive bucketing (data model,
AdaptiveBucketing), `CSeasonalComponentAdaptiveBucketing` in the header, defined
outside the excerpt. -/
structure AdaptiveBucketing where
  period : ℚ
  maxSize : ℕ
  decayRate : ℚ
  minBucketLength : ℚ
  buckets : List BucketModel
deriving DecidableEq

/-- Modelled from the spec: a fitted spline (data model, PeriodicSpline): the
knots and the coefficients. The spline class is defined outside the excerpt. -/
structure PeriodicSpline where
  knots : List ℚ
  coefficients : List ℚ
deriving DecidableEq

/-- Modelled from the spec: the state of the generator `CPRNG::CXorOShiro128Plus`
(member `m_Rng`), two 64 bit words. The generator is defined outside the
excerpt. -/
structure RngState where
  s0 : ℕ
  s1 : ℕ
deriving DecidableEq

/-- Modelled from the spec: the seasonal component (data model,
SeasonalComponent). `m_Rng` and `m_Bucketing` are the two members the header
declares; the splines and the `initialized` flag are the state the
specification gives the base class `CDecompositionComponent`, defined outside
the excerpt. -/
structure CSeasonalComponent where
  m_Rng : RngState
  m_Bucketing : AdaptiveBucketing
  valueSpline : PeriodicSpline
  varianceSpline : PeriodicSpline
  initialized : Bool
deriving DecidableEq

/-- Modelled from the spec: one structural change of a refinement (component
design, AdaptiveBucketing, `refine`): moving the boundary between the buckets
`i` and `i + 1` to the phase `x`, splitting the bucket `i` at the phase `x` into
two buckets with the given statistics, or merging the buckets `i` and `i + 1`
into one bucket with the given statistics. The bucketing is defined outside the
excerpt. -/
inductive RefineEdit where
  | move (i : ℕ) (x : ℚ)
  | split (i : ℕ) (x : ℚ) (left right : BucketModel)
  | merge (i : ℕ) (merged : BucketModel)

/-- Modelled from the spec: what the specification of the seasonal component
leaves open, as parameters. The functions stand for code defined outside the
excerpt.

* `phase`: the time provider, `phase(time)`;
* `jitter`: the jitter generator: from the generator state and the time, the
  next state and the perturbation of the phase;
* `update`: `BucketModel.update(value, weight, time)` on the statistics of a
  bucket (its result's interval is not used);
* `exp`: the exponential of the aging factor;
* `bucketWeight`: the weight of a bucket in the weighted average across
  buckets that a mean reversion relaxes towards;
* `refineEdits`: the structural changes a refinement at a time decides from the
  error statistics of the buckets;
* `widthLimit`: the width limit of a merge;
* `largeElapsed`: whether an elapsed time is large relative to the effective
  memory of the bucketing; `relaxFraction`: the fraction of the way the mean
  reversion relaxes by;
* `fitValues`, `fitVariances`: the spline fits, from knots and knot values;
* `initialSize`: the number of buckets an initialisation asks for;
* `seed`: the statistics of an initial bucket, from its interval and the
  windowed summaries;
* `hashNat`, `hashNumber`: the hash steps of the checksum. -/
structure SeasonalEnv where
  phase : ℤ → ℚ
  jitter : RngState → ℤ → RngState × ℚ
  update : BucketModel → ℚ → ℚ → ℚ → BucketModel
  exp : ℚ → ℚ
  bucketWeight : BucketModel → ℚ
  refineEdits : ℤ → AdaptiveBucketing → List RefineEdit
  widthLimit : AdaptiveBucketing → ℚ
  largeElapsed : AdaptiveBucketing → ℚ → Bool
  relaxFraction : AdaptiveBucketing → ℚ → ℚ
  fitValues : List ℚ → List ℚ → List ℚ
  fitVariances : List ℚ → List ℚ → List ℚ
  initialSize : ℕ → ℕ
  seed : ℚ → ℚ → List ((ℤ × ℤ) × (ℚ × ℚ × ℚ)) → BucketModel
  hashNat : ℕ → ℕ → ℕ
  hashNumber : ℕ → ℚ → ℕ

namespace BucketModel

/-- Modelled from the spec: the length of the interval of a bucket. -/
def length (b : BucketModel) : ℚ :=
  b.phaseEnd - b.phaseStart

/-- Modelled from the spec: whether the phase lies in the interval
`[phaseStart, phaseEnd)` of the bucket. -/
def owns (b : BucketModel) (phase : ℚ) : Bool :=
  decide (b.phaseStart ≤ phase) && decide (phase < b.phaseEnd)

/-- Modelled from the spec: `varianceDueToParameterDrift` of a bucket after the
elapsed time `t` since its last fit, "the usual variance-of-a-linear-prediction
formula (`Var(intercept) + 2*t*Cov(intercept,slope) + t²*Var(slope)`)". The
function is defined outside the excerpt. -/
def varianceDueToParameterDrift (b : BucketModel) (t : ℚ) : ℚ :=
  b.regression.varIntercept + 2 * t * b.regression.covInterceptSlope
    + t ^ 2 * b.regression.varSlope

/-- Modelled from the spec: `BucketModel.update(value, weight, time)`. The fitting
formulas are `env.update`; the interval of the bucket is kept and the time of
the last update is set. -/
def update (env : SeasonalEnv) (b : BucketModel) (value weight time : ℚ) : BucketModel :=
  { b with
    regression := (env.update b value weight time).regression
    residualVariance := (env.update b value weight time).residualVariance
    lastUpdateTime := time }

end BucketModel

end maths

namespace maths

namespace AdaptiveBucketing

/-- Modelled from the spec: the intervals of a list of buckets, in order. -/
def intervals (bs : List BucketModel) : List (ℚ × ℚ) :=
  bs.map fun b => (b.phaseStart, b.phaseEnd)

/-- Modelled from the spec: a list of intervals is a chain from `a` to `b`: the
first starts at `a`, each one ends no earlier than it starts and ends where the
next starts, and the last ends at `b`. -/
def Chain : ℚ → List (ℚ × ℚ) → ℚ → Prop
  | a, [], b => a = b
  | a, i :: rest, b => i.1 = a ∧ i.1 ≤ i.2 ∧ Chain i.2 rest b

instance Chain.instDecidable : (a : ℚ) → (l : List (ℚ × ℚ)) → (b : ℚ) → Decidable (Chain a l b)
  | a, [], b => inferInstanceAs (Decidable (a = b))
  | a, i :: rest, b =>
    have := Chain.instDecidable i.2 rest b
    inferInstanceAs (Decidable (i.1 = a ∧ i.1 ≤ i.2 ∧ Chain i.2 rest b))

/-- Modelled from the spec: the invariant of the bucketing (data model,
AdaptiveBucketing): "buckets are contiguous and non-overlapping, ordered by
`phaseStart`; their intervals exactly tile `[0, period)`; `len(buckets) ≤
maxSize`". -/
def Coverage (B : AdaptiveBucketing) : Prop :=
  B.buckets ≠ [] ∧ Chain 0 (intervals B.buckets) B.period ∧ B.buckets.length ≤ B.maxSize

instance Coverage.instDecidable (B : AdaptiveBucketing) : Decidable B.Coverage :=
  inferInstanceAs (Decidable (B.buckets ≠ [] ∧ Chain 0 (intervals B.buckets) B.period ∧
    B.buckets.length ≤ B.maxSize))

/-- Modelled from the spec: the update of the owning bucket of a phase, the
first bucket whose interval holds it; no bucket changes if none does. -/
def addToOwner (env : SeasonalEnv) (phase value weight time : ℚ) :
    List BucketModel → List BucketModel
  | [] => []
  | b :: bs =>
    if b.owns phase then
      b.update env value weight time :: bs
    else
      b :: addToOwner env phase value weight time bs

/-- Modelled from the spec: `add(phase, value, weight)` (component design,
AdaptiveBucketing): "locate the owning bucket by a search over interval
boundaries ...; delegate to `BucketModel.update`". -/
def add (env : SeasonalEnv) (B : AdaptiveBucketing) (phase value weight time : ℚ) :
    AdaptiveBucketing :=
  { B with buckets := addToOwner env phase value weight time B.buckets }

/-- Modelled from the spec: moving the boundary between the buckets `i` and
`i + 1` to `x`, "subject to `minimumBucketLength`": the bucket that the move
shortens keeps the minimum length; otherwise nothing moves. There is no other
condition on `x`. -/
def moveBoundary (minLength : ℚ) : ℕ → ℚ → List BucketModel → List BucketModel
  | 0, x, l :: r :: bs =>
    if (x < l.phaseEnd → minLength ≤ x - l.phaseStart) ∧
        (r.phaseStart < x → minLength ≤ r.phaseEnd - x) then
      { l with phaseEnd := x } :: { r with phaseStart := x } :: bs
    else
      l :: r :: bs
  | i + 1, x, b :: bs => b :: moveBoundary minLength i x bs
  | _, _, bs => bs

/-- Modelled from the spec: splitting the bucket `i` at the phase `x` into two
buckets with the statistics `left` and `right`. The two buckets are not from
the initialisation, so each has the minimum length ("every interval length `≥
minBucketLength` unless `maxSize` forces smaller spacing at initialization");
otherwise nothing is split. There is no other condition on `x`. -/
def splitBucket (minLength : ℚ) :
    ℕ → ℚ → BucketModel → BucketModel → List BucketModel → List BucketModel
  | 0, x, left, right, b :: bs =>
    if minLength ≤ x - b.phaseStart ∧ minLength ≤ b.phaseEnd - x then
      { left with phaseStart := b.phaseStart, phaseEnd := x } ::
        { right with phaseStart := x, phaseEnd := b.phaseEnd } :: bs
    else
      b :: bs
  | i + 1, x, left, right, b :: bs => b :: splitBucket minLength i x left right bs
  | _, _, _, _, [] => []

/-- Modelled from the spec: merging the buckets `i` and `i + 1` into one bucket
with the statistics `merged`, when "removing the boundary does not exceed a
width limit". -/
def mergeBuckets (limit : ℚ) : ℕ → BucketModel → List BucketModel → List BucketModel
  | 0, merged, l :: r :: bs =>
    if r.phaseEnd - l.phaseStart ≤ limit then
      { merged with phaseStart := l.phaseStart, phaseEnd := r.phaseEnd } :: bs
    else
      l :: r :: bs
  | i + 1, merged, b :: bs => b :: mergeBuckets limit i merged bs
  | _, _, bs => bs

/-- Modelled from the spec: one structural change of a refinement applied to the
bucketing; a split needs "headroom ... under `maxSize`". -/
def applyEdit (env : SeasonalEnv) (B : AdaptiveBucketing) : RefineEdit → AdaptiveBucketing
  | .move i x => { B with buckets := moveBoundary B.minBucketLength i x B.buckets }
  | .split i x left right =>
    if B.buckets.length < B.maxSize then
      { B with buckets := splitBucket B.minBucketLength i x left right B.buckets }
    else
      B
  | .merge i merged => { B with buckets := mergeBuckets (env.widthLimit B) i merged B.buckets }

/-- Modelled from the spec: `refine(currentTime)` (component design,
AdaptiveBucketing): the boundary moves, splits and merges that the error
statistics of the buckets call for (`env.refineEdits`), applied in order. -/
def refine (env : SeasonalEnv) (B : AdaptiveBucketing) (currentTime : ℤ) : AdaptiveBucketing :=
  (env.refineEdits currentTime B).foldl (applyEdit env) B

end AdaptiveBucketing

end maths

namespace maths

namespace BucketModel

end BucketModel

namespace CSeasonalComponent

/-- Modelled from the spec: the constructor `CSeasonalComponent(time, maxSize,
decayRate, minimumBucketLength, ...)`: the component is "created
uninitialized", with no bucket; "invalid `maxSize`/`period`/`decayRate`" is
"rejected at construction time" (none). The period is the one of the time
provider and `rng` is the seeded generator. -/
def create (period : ℚ) (rng : RngState) (maxSize : ℕ) (decayRate minimumBucketLength : ℚ) :
    Option CSeasonalComponent :=
  if maxSize = 0 ∨ period ≤ 0 ∨ decayRate < 0 then
    none
  else
    some
      { m_Rng := rng
        m_Bucketing :=
          { period := period, maxSize := maxSize, decayRate := decayRate,
            minBucketLength := minimumBucketLength, buckets := [] }
        valueSpline := ⟨[], []⟩
        varianceSpline := ⟨[], []⟩
        initialized := false }

/-- Modelled from the spec: `add(time, value, weight)` (component design,
SeasonalComponent): "computes `phase = timeProvider.phase(time)`, perturbs it
by a bounded pseudo-random jitter ...; forwards to `bucketing.add`". -/
def add (env : SeasonalEnv) (self : CSeasonalComponent) (time : ℤ) (value weight : ℚ) :
    CSeasonalComponent :=
  let j := env.jitter self.m_Rng time
  { self with
    m_Rng := j.1
    m_Bucketing := self.m_Bucketing.add env (env.phase time + j.2) value weight time }

end CSeasonalComponent

end maths

namespace maths

end maths

namespace maths

/-- A bucket whose regression coefficients have the covariance matrix
`[[2, -1], [-1, 1]]` (positive definite, intercept and slope negatively
correlated), used to evaluate the drift variance. -/
def negativelyCorrelatedBucket : BucketModel :=
  ⟨0, 8, ⟨0, 0, 2, -1, 1, 5⟩, ⟨0, 1, 5⟩, 0⟩

end maths

namespace maths

/-- Modelled from the spec: an entry of the "nested tagged key/value document"
of the persistence interface: a tagged number or a tagged sub-level. The text
form of a number is part of the document I/O mechanics and is not
represented. The document classes are defined outside the excerpt. -/
inductive TaggedValue where
  | number (tag : String) (x : ℚ)
  | level (tag : String) (entries : List TaggedValue)

/-- Modelled from the spec: the first number with the given tag among the
entries of a level; none if the tag is missing. -/
def findNumber (tag : String) : List TaggedValue → Option ℚ
  | [] => none
  | .number t x :: rest => if t = tag then some x else findNumber tag rest
  | .level _ _ :: rest => findNumber tag rest

/-- Modelled from the spec: the first sub-level with the given tag among the
entries of a level; none if the tag is missing. -/
def findLevel (tag : String) : List TaggedValue → Option (List TaggedValue)
  | [] => none
  | .number _ _ :: rest => findLevel tag rest
  | .level t es :: rest => if t = tag then some es else findLevel tag rest

/-- Modelled from the spec: a persisted number read as a count; none if it is
not a natural number. -/
def toCount (x : ℚ) : Option ℕ :=
  if x.den = 1 ∧ 0 ≤ x.num then some x.num.toNat else none

namespace BucketModel

/-- Modelled from the spec: the persisted form of a bucket: "each bucket's
interval bounds + regression coefficients + covariance + effective weight +
variance accumulator", and the time of its last update. -/
def acceptPersistInserter (b : BucketModel) : List TaggedValue :=
  [.number "phase_start" b.phaseStart,
   .number "phase_end" b.phaseEnd,
   .number "intercept" b.regression.interceptMean,
   .number "slope" b.regression.slope,
   .number "var_intercept" b.regression.varIntercept,
   .number "cov_intercept_slope" b.regression.covInterceptSlope,
   .number "var_slope" b.regression.varSlope,
   .number "regression_weight" b.regression.effectiveWeight,
   .number "residual_mean" b.residualVariance.mean,
   .number "residual_variance" b.residualVariance.variance,
   .number "residual_weight" b.residualVariance.effectiveWeight,
   .number "last_update_time" b.lastUpdateTime]

/-- Modelled from the spec: the restore of a bucket from its sub-level: every
tag is required, "a structurally required tag missing causes restore to fail
for that sub-document" (none). -/
def acceptRestoreTraverser (entries : List TaggedValue) : Option BucketModel := do
  let phaseStart ← findNumber "phase_start" entries
  let phaseEnd ← findNumber "phase_end" entries
  let intercept ← findNumber "intercept" entries
  let slope ← findNumber "slope" entries
  let varIntercept ← findNumber "var_intercept" entries
  let covInterceptSlope ← findNumber "cov_intercept_slope" entries
  let varSlope ← findNumber "var_slope" entries
  let regressionWeight ← findNumber "regression_weight" entries
  let residualMean ← findNumber "residual_mean" entries
  let residualVariance ← findNumber "residual_variance" entries
  let residualWeight ← findNumber "residual_weight" entries
  let lastUpdateTime ← findNumber "last_update_time" entries
  pure
    { phaseStart := phaseStart
      phaseEnd := phaseEnd
      regression := ⟨intercept, slope, varIntercept, covInterceptSlope, varSlope,
        regressionWeight⟩
      residualVariance := ⟨residualMean, residualVariance, residualWeight⟩
      lastUpdateTime := lastUpdateTime }

end BucketModel

namespace AdaptiveBucketing

/-- Modelled from the spec: the persisted form of the bucketing: "period,
maxSize, decayRate, minimumBucketLength, ordered bucket list", the buckets in
boundary order. -/
def acceptPersistInserter (B : AdaptiveBucketing) : List TaggedValue :=
  [.number "period" B.period,
   .number "max_size" B.maxSize,
   .number "decay_rate" B.decayRate,
   .number "minimum_bucket_length" B.minBucketLength] ++
  B.buckets.map fun b => .level "bucket" b.acceptPersistInserter

/-- Modelled from the spec: the restore of the bucket list: the sub-levels
tagged "bucket", in document order; entries with another tag are skipped, and
a bucket that fails to restore fails the list. -/
def restoreBuckets : List TaggedValue → Option (List BucketModel)
  | [] => some []
  | .number _ _ :: rest => restoreBuckets rest
  | .level t es :: rest =>
    if t = "bucket" then
      match BucketModel.acceptRestoreTraverser es, restoreBuckets rest with
      | some b, some bs => some (b :: bs)
      | _, _ => none
    else
      restoreBuckets rest

/-- Modelled from the spec: the restore of the bucketing from its sub-level. The
four scalar tags are required. The decay rate and the minimum bucket length of
the restored bucketing are the arguments of the restoring constructor, as in
its declaration in the header. -/
def acceptRestoreTraverser (decayRate minimumBucketLength : ℚ) (entries : List TaggedValue) :
    Option AdaptiveBucketing := do
  let period ← findNumber "period" entries
  let maxSize ← (findNumber "max_size" entries).bind toCount
  let _ ← findNumber "decay_rate" entries
  let _ ← findNumber "minimum_bucket_length" entries
  let buckets ← restoreBuckets entries
  pure
    { period := period, maxSize := maxSize, decayRate := decayRate,
      minBucketLength := minimumBucketLength, buckets := buckets }

end AdaptiveBucketing

namespace CSeasonalComponent

/-- Modelled from the spec: `acceptPersistInserter(inserter)`: the document holds
the "RNG state" and the "bucketing". -/
def acceptPersistInserter (self : CSeasonalComponent) : List TaggedValue :=
  [.level "rng" [.number "s0" self.m_Rng.s0, .number "s1" self.m_Rng.s1],
   .level "bucketing" self.m_Bucketing.acceptPersistInserter]

/-- Modelled from the spec: the private `acceptRestoreTraverser(decayRate,
minimumBucketLength, traverser)`: none on "a malformed or incomplete
document". -/
def acceptRestoreTraverser (decayRate minimumBucketLength : ℚ) (entries : List TaggedValue) :
    Option CSeasonalComponent := do
  let rng ← findLevel "rng" entries
  let s0 ← (findNumber "s0" rng).bind toCount
  let s1 ← (findNumber "s1" rng).bind toCount
  let bucketing ← findLevel "bucketing" entries
  let B ← AdaptiveBucketing.acceptRestoreTraverser decayRate minimumBucketLength bucketing
  pure
    { m_Rng := ⟨s0, s1⟩
      m_Bucketing := B
      valueSpline := ⟨[], []⟩
      varianceSpline := ⟨[], []⟩
      initialized := true }

end CSeasonalComponent

end maths

end ml

namespace ml

namespace core

/-- A restore traverser positioned on the first element of a level; there is
none for a level without elements. -/
def CStateRestoreTraverser.ofLevel : List StateNode → Option CStateRestoreTraverser
  | [] => none
  | first :: rest => some ⟨first, rest⟩

end core

namespace maths

/-- The call `SNormalMeanLess()(lhs, rhs)` with two normals, the overload
`std::sort` uses. -/
def detail.SNormalMeanLess.normals (lhs rhs : CNormalMeanPrecConjugate) : Bool :=
  decide (lhs.marginalLikelihoodMean < rhs.marginalLikelihoodMean)

/-- The insertion step of `std_sort`: `x` goes before the first element `y` with
`comp(x, y)`. -/
def sortInsert {α : Type} (comp : α → α → Bool) (x : α) : List α → List α
  | [] => [x]
  | y :: ys => if comp x y then x :: y :: ys else y :: sortInsert comp x ys

/-- The call `std::sort(xs.begin(), xs.end(), comp)`. The standard library
leaves the algorithm and the order of equivalent elements open; this is the
insertion sort driven by `comp`. -/
def std_sort {α : Type} (comp : α → α → Bool) : List α → List α
  | [] => []
  | x :: xs => sortInsert comp x (std_sort comp xs)

namespace CKMeansOnline1d

/-- The constructor `CKMeansOnline1d(TNormalVec &clusters)`: it sorts the
argument in place and assigns it to `m_Clusters`. The pair is the clusterer and
the argument afterwards. -/
def create (clusters : List CNormalMeanPrecConjugate) :
    CKMeansOnline1d × List CNormalMeanPrecConjugate :=
  let sorted := std_sort detail.SNormalMeanLess.normals clusters
  ({ m_Clusters := sorted }, sorted)

/-- The loop `weightSum += m_Clusters[i].numberSamples()` of `probability`, from
the value `weightSum`. -/
def weightSumFrom (weightSum : ℚ) : List CNormalMeanPrecConjugate → ℚ
  | [] => weightSum
  | c :: cs => weightSumFrom (weightSum + c.numberSamples) cs

/-- The method `probability(index)`. -/
def probability (self : CKMeansOnline1d) (index : ℕ) : ℚ :=
  if hc : ¬ (self.hasCluster index = true) then
    0
  else
    let weight :=
      (self.m_Clusters.get ⟨index, of_decide_eq_true (Decidable.not_not.1 hc)⟩).numberSamples
    let weightSum := weightSumFrom 0 self.m_Clusters
    if weightSum = 0 then 0 else weight / weightSum

end CKMeansOnline1d

/-- An environment of `CKMeansOnline1d` for evaluating `cluster` on an example:
no floating point error is reported, the log likelihood of a point is `-23/5`
from a normal of mean 0 and `0` from any other normal, the logarithm of one
sample is 0, and the exponential is 1 at 0 and `2513/250000` elsewhere
(`exp(-4.6)` to six digits). -/
def softEnv : MathsEnv where
  E_FpOverflowed := 1
  E_FpFailed := 2
  LOG_MIN_DOUBLE := -708
  log := fun _ => 0
  exp := fun x => if x = 0 then 1 else 2513 / 250000
  sqrt := fun x => x
  jointLogMarginalLikelihood := fun normal _ =>
    (0, if normal.marginalLikelihoodMean = 0 then -23 / 5 else 0)
  sampleMarginalLikelihood := fun _ _ => []

end maths

namespace model

namespace CDataClassifier

/-- The method `acceptPersistInserter(inserter)`: the elements it inserts, in
order. `intToString` is the conversion `insertValue` applies to an `int`
(outside the excerpt); `static_cast<int>` of a `bool` is 1 or 0. -/
def acceptPersistInserter (intToString : ℤ → String) (self : CDataClassifier) :
    List core.StateNode :=
  [.node IS_INTEGER_TAG (intToString (if self.m_IsInteger then 1 else 0)) [],
   .node IS_NON_NEGATIVE_TAG (intToString (if self.m_IsNonNegative then 1 else 0)) []]

/-- The decimal text of the two values `static_cast<int>` of a `bool` takes,
used to evaluate persists on concrete classifiers. -/
def printFlag (value : ℤ) : String :=
  if value = 0 then "0" else "1"

end CDataClassifier

end model

end ml

namespace ml

namespace maths

namespace CKMeansOnline1d

/-- The normalised weights `pLeft` and `pRight` that `cluster` computes from the
two log likelihoods (the statements from `renormalizer` to `pRight /=
normalizer`). -/
def normalisedWeights (env : MathsEnv) (likelihoodLeft likelihoodRight : ℚ) : ℚ × ℚ :=
  let renormalizer :=
    if likelihoodLeft < likelihoodRight then likelihoodRight else likelihoodLeft
  let pLeft₀ := env.exp (likelihoodLeft - renormalizer)
  let pRight₀ := env.exp (likelihoodRight - renormalizer)
  let normalizer := pLeft₀ + pRight₀
  (pLeft₀ / normalizer, pRight₀ / normalizer)

/-- The last branch of `cluster`, for a point with the neighbours `leftCluster`
and `rightCluster`: the hard or soft assignment from the two log likelihoods;
`cluster_between_neighbours` relates it to `cluster`. -/
def assignBetween (env : MathsEnv) (leftCluster rightCluster : ℕ)
    (likelihoodLeft likelihoodRight count : ℚ) : List (ℕ × ℚ) :=
  let p := normalisedWeights env likelihoodLeft likelihoodRight
  if p.1 < HARD_ASSIGNMENT_THRESHOLD * p.2 then
    [(rightCluster, count)]
  else if p.2 < HARD_ASSIGNMENT_THRESHOLD * p.1 then
    [(leftCluster, count)]
  else
    [(leftCluster, count * p.1), (rightCluster, count * p.2)]

end CKMeansOnline1d

end maths

end ml

/-! ## `CFieldStatistics` -/

namespace ml

namespace config

/-- What `CFieldStatistics.cc` takes from files outside the excerpt about data
types: the value `config_t::EDataType` of an unclassified field, the type that
`CDataSemantics::computeType` infers from the user specified type and the
examples added so far, and the predicates `config_t::isCategorical`,
`config_t::isNumeric` and `config_t::isInteger`. A data type is its number. -/
structure ConfigEnv where
  undetermined : ℕ
  computeType : Option ℕ → List String → ℕ
  isCategorical : ℕ → Bool
  isNumeric : ℕ → Bool
  isInteger : ℕ → Bool

/-- The parameters `CAutoconfigurerParams` that `CFieldStatistics` reads. The
class is declared outside the excerpt. -/
structure CAutoconfigurerParams where
  minimumExamplesToClassify : ℕ
  numberOfMostFrequentFieldsCounts : ℕ
  dataType : String → Option ℕ

/-- The field semantics `CDataSemantics`, declared outside the excerpt, as the
history that determines it: the user specified type it was constructed with,
the examples passed to `add`, in order, and the type of the last
`computeType`. -/
structure CDataSemantics where
  m_Override : Option ℕ
  m_Examples : List String
  m_Type : ℕ
deriving DecidableEq

/-- The base summary `CDataSummaryStatistics`, declared outside the excerpt, as
the history that determines it: the times passed to `add(time)`, in order. -/
structure CDataSummaryStatistics where
  m_Times : List ℤ
deriving DecidableEq

/-- The categorical summary `CCategoricalDataSummaryStatistics`, declared outside
the excerpt, as the history that determines it: the base summary and the count
it was constructed from and the pairs passed to `add(time, example)`, in
order. -/
structure CCategoricalDataSummaryStatistics where
  m_Summary : CDataSummaryStatistics
  m_N : ℕ
  m_Added : List (ℤ × String)
deriving DecidableEq

/-- The numeric summary `CNumericDataSummaryStatistics`, declared outside the
excerpt, as the history that determines it: the base summary and the integer
flag it was constructed from and the pairs passed to `add(time, example)`, in
order. -/
structure CNumericDataSummaryStatistics where
  m_Summary : CDataSummaryStatistics
  m_Integer : Bool
  m_Added : List (ℤ × String)
deriving DecidableEq

/-- The `boost::variant` of the three summary kinds, the type of
`m_SummaryStatistics`. -/
inductive TSummaryStatistics where
  | data (summary : CDataSummaryStatistics)
  | categorical (summary : CCategoricalDataSummaryStatistics)
  | numeric (summary : CNumericDataSummaryStatistics)
deriving DecidableEq

/-- The visitor `CAddToStatistics(time, example)` applied to the variant: the base
kind gets `summary.add(time)`, the categorical and the numeric kind get
`summary.add(time, example)`. -/
def CAddToStatistics (time : ℤ) (exampleText : String) : TSummaryStatistics → TSummaryStatistics
  | .data summary => .data { summary with m_Times := summary.m_Times ++ [time] }
  | .categorical summary =>
    .categorical { summary with m_Added := summary.m_Added ++ [(time, exampleText)] }
  | .numeric summary =>
    .numeric { summary with m_Added := summary.m_Added ++ [(time, exampleText)] }

/-- The members of `CFieldStatistics`. -/
structure CFieldStatistics where
  m_Params : CAutoconfigurerParams
  m_FieldName : String
  m_NumberExamples : ℕ
  m_Semantics : CDataSemantics
  m_SummaryStatistics : TSummaryStatistics
  m_Buffer : List (ℤ × String)

namespace CFieldStatistics

/-- The constructor `CFieldStatistics(fieldName, params)`. -/
def create (env : ConfigEnv) (fieldName : String) (params : CAutoconfigurerParams) :
    CFieldStatistics :=
  { m_Params := params
    m_FieldName := fieldName
    m_NumberExamples := 0
    m_Semantics := ⟨params.dataType fieldName, [], env.undetermined⟩
    m_SummaryStatistics := .data ⟨[]⟩
    m_Buffer := [] }

/-- The accessor `summary()`: the base summary, or null. -/
def summary (self : CFieldStatistics) : Option CDataSummaryStatistics :=
  match self.m_SummaryStatistics with
  | .data s => some s
  | _ => none

/-- The accessor `categoricalSummary()`: the categorical summary, or null. -/
def categoricalSummary (self : CFieldStatistics) : Option CCategoricalDataSummaryStatistics :=
  match self.m_SummaryStatistics with
  | .categorical s => some s
  | _ => none

/-- The accessor `numericSummary()`: the numeric summary, or null. -/
def numericSummary (self : CFieldStatistics) : Option CNumericDataSummaryStatistics :=
  match self.m_SummaryStatistics with
  | .numeric s => some s
  | _ => none

/-- The statements of `add(time, example)` before the call of
`maybeStartCapturingTypeStatistics`: the count is incremented, the pair is
pushed to the buffer while the count is below `minimumExamplesToClassify`, the
example goes to the semantics and the visitor is applied to the summary. -/
def addBody (self : CFieldStatistics) (time : ℤ) (exampleText : String) : CFieldStatistics :=
  let count := self.m_NumberExamples + 1
  { self with
    m_NumberExamples := count
    m_Buffer :=
      if count < self.m_Params.minimumExamplesToClassify then
        self.m_Buffer ++ [(time, exampleText)]
      else
        self.m_Buffer
    m_Semantics := { self.m_Semantics with
      m_Examples := self.m_Semantics.m_Examples ++ [exampleText] }
    m_SummaryStatistics := CAddToStatistics time exampleText self.m_SummaryStatistics }

/-- The method `replayBuffer()`, from the index `i` of its loop on: `add` is the
method `add` that the loop calls and `steps` bounds the iterations left; none
if `steps` runs out or a call of `add` gives none. After the loop the buffer is
swapped with an empty one. -/
def replayBuffer (add : CFieldStatistics → ℤ → String → Option CFieldStatistics) :
    ℕ → ℕ → CFieldStatistics → Option CFieldStatistics
  | 0, _, _ => none
  | steps + 1, i, self =>
    if h : i < self.m_Buffer.length then
      match add self (self.m_Buffer.get ⟨i, h⟩).1 (self.m_Buffer.get ⟨i, h⟩).2 with
      | none => none
      | some next => replayBuffer add steps (i + 1) next
    else
      some { self with m_Buffer := [] }

/-- The method `maybeStartCapturingTypeStatistics()`; `add` and `steps` are passed
on to `replayBuffer`. -/
def maybeStartCapturingTypeStatistics (env : ConfigEnv)
    (add : CFieldStatistics → ℤ → String → Option CFieldStatistics) (steps : ℕ)
    (self : CFieldStatistics) : Option CFieldStatistics :=
  if self.m_NumberExamples > self.m_Params.minimumExamplesToClassify then
    match self.m_SummaryStatistics with
    | .data summary =>
      let semantics : CDataSemantics :=
        { self.m_Semantics with
          m_Type := env.computeType self.m_Semantics.m_Override self.m_Semantics.m_Examples }
      let type := semantics.m_Type
      if env.isCategorical type then
        replayBuffer add steps 0
          { self with
            m_Semantics := semantics
            m_SummaryStatistics :=
              .categorical ⟨summary, self.m_Params.numberOfMostFrequentFieldsCounts, []⟩ }
      else if env.isNumeric type then
        replayBuffer add steps 0
          { self with
            m_Semantics := semantics
            m_SummaryStatistics := .numeric ⟨summary, env.isInteger type, []⟩ }
      else
        some { self with m_Semantics := semantics }
    | _ => some self
  else
    some self

/-- The method `add(time, example)` with a bound on the depth of the calls
between `add` and `replayBuffer` and on the iterations of the replay loop; none
if the bound runs out. -/
def addFuel (env : ConfigEnv) : ℕ → CFieldStatistics → ℤ → String → Option CFieldStatistics
  | 0, _, _, _ => none
  | fuel + 1, self, time, exampleText =>
    maybeStartCapturingTypeStatistics env (addFuel env fuel) fuel (addBody self time exampleText)

/-- The method `add(time, example)`: the bound `m_Buffer.size() + 3` is enough for
every call, and every larger bound gives the same result
(`addFuel_eq_addUnrolled`). -/
def add (env : ConfigEnv) (self : CFieldStatistics) (time : ℤ) (exampleText : String) :
    Option CFieldStatistics :=
  addFuel env (self.m_Buffer.length + 3) self time exampleText

/-- The method `replayBuffer()` with its loop unrolled over the buffer as it is
when the loop starts and the nested calls of `add` replaced by their bodies
before `maybeStartCapturingTypeStatistics`; `replayBuffer_eq_replayUnrolled`
relates it to `replayBuffer` for the states the replay runs in. -/
def replayUnrolled (self : CFieldStatistics) : CFieldStatistics :=
  { self.m_Buffer.foldl (fun s x => addBody s x.1 x.2) self with m_Buffer := [] }

/-- The method `add(time, example)` with the nested calls unrolled;
`addFuel_eq_addUnrolled` relates it to `addFuel`. -/
def addUnrolled (env : ConfigEnv) (self : CFieldStatistics) (time : ℤ)
    (exampleText : String) : CFieldStatistics :=
  let body := addBody self time exampleText
  if body.m_NumberExamples > body.m_Params.minimumExamplesToClassify then
    match body.m_SummaryStatistics with
    | .data summary =>
      let semantics : CDataSemantics :=
        { body.m_Semantics with
          m_Type := env.computeType body.m_Semantics.m_Override body.m_Semantics.m_Examples }
      if env.isCategorical semantics.m_Type then
        replayUnrolled
          { body with
            m_Semantics := semantics
            m_SummaryStatistics :=
              .categorical ⟨summary, body.m_Params.numberOfMostFrequentFieldsCounts, []⟩ }
      else if env.isNumeric semantics.m_Type then
        replayUnrolled
          { body with
            m_Semantics := semantics
            m_SummaryStatistics := .numeric ⟨summary, env.isInteger semantics.m_Type, []⟩ }
      else
        { body with m_Semantics := semantics }
    | _ => body
  else
    body

/-- A sequence of `add` calls, in order. -/
def addAll (env : ConfigEnv) : CFieldStatistics → List (ℤ × String) → Option CFieldStatistics
  | self, [] => some self
  | self, x :: xs =>
    match add env self x.1 x.2 with
    | none => none
    | some next => addAll env next xs

/-- The pairs that were passed to `add(time, example)` of the typed summary, in
order; none were if the summary is of the base kind. -/
def typedAdded (self : CFieldStatistics) : List (ℤ × String) :=
  match self.m_SummaryStatistics with
  | .data _ => []
  | .categorical s => s.m_Added
  | .numeric s => s.m_Added

end CFieldStatistics

/-- An environment for evaluating `CFieldStatistics` on examples: type 0 is
undetermined, type 1 categorical, type 2 numeric and integer; a field is
numeric if its examples are all "1" or "2" and categorical otherwise. -/
def sampleConfigEnv : ConfigEnv where
  undetermined := 0
  computeType := fun _ examples =>
    if examples.all (fun e => e == "1" || e == "2") then 2 else 1
  isCategorical := fun t => t == 1
  isNumeric := fun t => t == 2
  isInteger := fun t => t == 2

/-- Parameters for the examples: classification after more than two examples. -/
def sampleParams : CAutoconfigurerParams where
  minimumExamplesToClassify := 2
  numberOfMostFrequentFieldsCounts := 10
  dataType := fun _ => none

end config

end ml

/-! ## Theorems -/

namespace ml

namespace maths

/-- C7: `clusterCentre`, `clusterSpread` and `sample` return a result for every
index (no read out of range), they return `true` exactly when
`hasCluster(index)`, which is `index < numberClusters()`, and when they return
`false` the output argument has the value that was passed in. -/
theorem CKMeansOnline1d.lookup_true_iff_hasCluster (env : MathsEnv) (self : CKMeansOnline1d)
    (index numberSamples : ℕ) (result : ℚ) (samples : List ℚ) :
    (self.hasCluster index = true ↔ index < self.numberClusters) ∧
    (∃ b r, self.clusterCentre index result = some (b, r) ∧
      (b = true ↔ self.hasCluster index = true) ∧ (b = false → r = result)) ∧
    (∃ b r, self.clusterSpread env index result = some (b, r) ∧
      (b = true ↔ self.hasCluster index = true) ∧ (b = false → r = result)) ∧
    (∃ b r, self.sample env index numberSamples samples = some (b, r) ∧
      (b = true ↔ self.hasCluster index = true) ∧ (b = false → r = samples)) := by
  refine ⟨by simp [hasCluster, numberClusters], ?_, ?_, ?_⟩
  · by_cases h : index < self.m_Clusters.length
    · exact ⟨true, (self.m_Clusters.get ⟨index, h⟩).marginalLikelihoodMean, by
        simp [clusterCentre, hasCluster, h, List.getElem?_eq_getElem], by
        simp [hasCluster, h], by simp⟩
    · exact ⟨false, result, by simp [clusterCentre, hasCluster, h], by
        simp [hasCluster, h], fun _ => rfl⟩
  · by_cases h : index < self.m_Clusters.length
    · exact ⟨true, env.sqrt (self.m_Clusters.get ⟨index, h⟩).marginalLikelihoodVariance, by
        simp [clusterSpread, hasCluster, h, List.getElem?_eq_getElem], by
        simp [hasCluster, h], by simp⟩
    · exact ⟨false, result, by simp [clusterSpread, hasCluster, h], by
        simp [hasCluster, h], fun _ => rfl⟩
  · by_cases h : index < self.m_Clusters.length
    · exact ⟨true, env.sampleMarginalLikelihood (self.m_Clusters.get ⟨index, h⟩) numberSamples, by
        simp [sample, hasCluster, h, List.getElem?_eq_getElem], by
        simp [hasCluster, h], by simp⟩
    · exact ⟨false, samples, by simp [sample, hasCluster, h], by
        simp [hasCluster, h], fun _ => rfl⟩

/-- C8: when `jointLogMarginalLikelihood` reports a status with the bit
`E_FpFailed` set, `logLikelihoodFromCluster` returns `LOG_MIN_DOUBLE - 1`, and
`cluster` on a non-empty cluster set returns a non-empty assignment, whatever
the likelihood evaluations report. -/
theorem numerical_failure_is_substituted (env : MathsEnv) (sample : List ℚ)
    (normal : CNormalMeanPrecConjugate) (self : CKMeansOnline1d) (point count : ℚ)
    (result : List (ℕ × ℚ))
    (hfailed : (env.jointLogMarginalLikelihood normal sample).1 &&& env.E_FpFailed ≠ 0)
    (hclusters : self.m_Clusters ≠ []) :
    detail.logLikelihoodFromCluster env sample normal = env.LOG_MIN_DOUBLE - 1 ∧
    self.cluster env point result count ≠ [] := by
  constructor
  · simp only [detail.logLikelihoodFromCluster]
    rw [if_pos hfailed]
  · have hne : self.m_Clusters.isEmpty = false := by
      cases h : self.m_Clusters with
      | nil => exact absurd h hclusters
      | cons a l => rfl
    unfold CKMeansOnline1d.cluster
    simp only [hne, Bool.false_eq_true, if_false]
    split_ifs <;> exact List.cons_ne_nil _ _

/-- Witness of C8: a two cluster set, a point between the two means and an
environment in which every likelihood evaluation fails. -/
theorem numerical_failure_is_substituted_witness :
    detail.logLikelihoodFromCluster
        { E_FpOverflowed := 1, E_FpFailed := 2, LOG_MIN_DOUBLE := -708,
          log := fun _ => 0, exp := fun _ => 1, sqrt := fun x => x,
          jointLogMarginalLikelihood := fun _ _ => (2, 0),
          sampleMarginalLikelihood := fun _ _ => [] } [5] ⟨0, 1, 1⟩ = -708 - 1 ∧
    CKMeansOnline1d.cluster
        { E_FpOverflowed := 1, E_FpFailed := 2, LOG_MIN_DOUBLE := -708,
          log := fun _ => 0, exp := fun _ => 1, sqrt := fun x => x,
          jointLogMarginalLikelihood := fun _ _ => (2, 0),
          sampleMarginalLikelihood := fun _ _ => [] }
        ⟨[⟨0, 1, 1⟩, ⟨10, 1, 1⟩]⟩ 5 [] 3 ≠ [] :=
  numerical_failure_is_substituted _ [5] ⟨0, 1, 1⟩ ⟨[⟨0, 1, 1⟩, ⟨10, 1, 1⟩]⟩ 5 3 []
    (by decide) (by simp)

end maths

end ml

namespace ml

namespace maths

theorem CKMeansOnline1d.clusters_restoreLoop_eq_restoreList {P : Type}
    (restoreNormal : P → core.StateNode → CNormalMeanPrecConjugate) (params : P)
    (rest : List core.StateNode) :
    ∀ (cur : core.StateNode) (self : CKMeansOnline1d),
      restoreLoop restoreNormal params cur rest self =
        restoreList restoreNormal params (cur :: rest) self := by
  induction rest with
  | nil =>
    intro cur self
    simp only [restoreLoop, restoreList]
    split_ifs <;> rfl
  | cons n rest1 ih =>
    intro cur self
    rw [restoreLoop, restoreList]
    simp only [ih]
    split_ifs <;> rfl

theorem CKMeansOnline1d.clusters_restoreList_filter {P : Type}
    (restoreNormal : P → core.StateNode → CNormalMeanPrecConjugate) (params : P)
    (l : List core.StateNode) :
    ∀ self : CKMeansOnline1d,
      restoreList restoreNormal params (l.filter fun e => knownTag e.name) self =
        restoreList restoreNormal params l self := by
  induction l with
  | nil => intro self; rfl
  | cons e es ih =>
    intro self
    by_cases h : e.name = CLUSTER_TAG
    · have hk : knownTag e.name = true := by simp [knownTag, h]
      simp only [List.filter_cons, hk, if_true]
      simp only [restoreList, h, if_true, ih]
    · have hk : knownTag e.name = false := by simp [knownTag, h]
      simp only [List.filter_cons, hk, Bool.false_eq_true, if_false]
      simp only [restoreList, h, if_false, ih]

end maths

namespace model

theorem CDataClassifier.flags_restoreLoop_eq_restoreList (stringToInt : String → Option ℤ)
    (rest : List core.StateNode) :
    ∀ (cur : core.StateNode) (self : CDataClassifier),
      restoreLoop stringToInt cur rest self = restoreList stringToInt (cur :: rest) self := by
  induction rest with
  | nil =>
    intro cur self
    simp only [restoreLoop, restoreList]
  | cons n rest1 ih =>
    intro cur self
    rw [restoreLoop, restoreList]
    simp only [ih]

theorem CDataClassifier.flags_restoreList_filter (stringToInt : String → Option ℤ)
    (l : List core.StateNode) :
    ∀ self : CDataClassifier,
      restoreList stringToInt (l.filter fun e => knownTag e.name) self =
        restoreList stringToInt l self := by
  induction l with
  | nil => intro self; rfl
  | cons e es ih =>
    intro self
    by_cases ha : e.name = IS_INTEGER_TAG
    · have hk : knownTag e.name = true := by simp [knownTag, ha]
      simp only [List.filter_cons, hk, if_true]
      simp only [restoreList, ha, if_true, ih]
    · by_cases hb : e.name = IS_NON_NEGATIVE_TAG
      · have hk : knownTag e.name = true := by simp [knownTag, hb]
        simp only [List.filter_cons, hk, if_true]
        simp only [restoreList, ha, hb, if_true, if_false, ih]
      · have hk : knownTag e.name = false := by simp [knownTag, ha, hb]
        simp only [List.filter_cons, hk, Bool.false_eq_true, if_false]
        simp only [restoreList, ha, hb, if_false, ih]

theorem CDataClassifier.restoreList_false_iff (stringToInt : String → Option ℤ)
    (l : List core.StateNode) :
    ∀ self : CDataClassifier,
      (restoreList stringToInt l self).1 = false ↔
        ∃ e ∈ l, knownTag e.name = true ∧ stringToInt e.value = none := by
  induction l with
  | nil => intro self; simp [restoreList]
  | cons e es ih =>
    intro self
    by_cases ha : e.name = IS_INTEGER_TAG
    · cases hp : stringToInt e.value with
      | none => simp [restoreList, ha, hp, knownTag]
      | some v => simp [restoreList, ha, hp, ih]
    · by_cases hb : e.name = IS_NON_NEGATIVE_TAG
      · have hab : ¬ IS_NON_NEGATIVE_TAG = IS_INTEGER_TAG := by decide
        cases hp : stringToInt e.value with
        | none => simp [restoreList, hab, hb, hp, knownTag]
        | some v => simp [restoreList, hab, hb, hp, ih]
      · simp [restoreList, ha, hb, ih, knownTag]

theorem CDataClassifier.restoreList_isInteger_unchanged (stringToInt : String → Option ℤ)
    (l : List core.StateNode) :
    ∀ self : CDataClassifier, (∀ e ∈ l, e.name ≠ IS_INTEGER_TAG) →
      (restoreList stringToInt l self).2.m_IsInteger = self.m_IsInteger := by
  induction l with
  | nil => intro self _; rfl
  | cons e es ih =>
    intro self h
    have ha : e.name ≠ IS_INTEGER_TAG := h e (List.mem_cons_self _ _)
    have hes : ∀ x ∈ es, x.name ≠ IS_INTEGER_TAG := fun x hx => h x (List.mem_cons_of_mem _ hx)
    by_cases hb : e.name = IS_NON_NEGATIVE_TAG
    · have hab : ¬ IS_NON_NEGATIVE_TAG = IS_INTEGER_TAG := by decide
      cases hp : stringToInt e.value with
      | none => simp [restoreList, hab, hb, hp]
      | some v => simp [restoreList, hab, hb, hp, ih _ hes]
    · simp [restoreList, ha, hb, ih _ hes]

theorem CDataClassifier.restoreList_isNonNegative_unchanged (stringToInt : String → Option ℤ)
    (l : List core.StateNode) :
    ∀ self : CDataClassifier, (∀ e ∈ l, e.name ≠ IS_NON_NEGATIVE_TAG) →
      (restoreList stringToInt l self).2.m_IsNonNegative = self.m_IsNonNegative := by
  induction l with
  | nil => intro self _; rfl
  | cons e es ih =>
    intro self h
    have hb : e.name ≠ IS_NON_NEGATIVE_TAG := h e (List.mem_cons_self _ _)
    have hes : ∀ x ∈ es, x.name ≠ IS_NON_NEGATIVE_TAG :=
      fun x hx => h x (List.mem_cons_of_mem _ hx)
    by_cases ha : e.name = IS_INTEGER_TAG
    · cases hp : stringToInt e.value with
      | none => simp [restoreList, ha, hp]
      | some v => simp [restoreList, ha, hp, ih _ hes]
    · simp [restoreList, ha, hb, ih _ hes]

end model

/-- C9: the two restore loops skip the elements whose tag name they do not
recognise. Two documents that differ only in such elements (the recognised
elements are the same, in the same order) give the same return value and the
same restored state, for `CDataClassifier` (tags "a", "b") and for
`CKMeansOnline1d` (tag "a"). -/
theorem unknown_tags_are_skipped {P : Type} (stringToInt : String → Option ℤ)
    (restoreNormal : P → core.StateNode → maths.CNormalMeanPrecConjugate) (params : P)
    (tc tc1 tk tk1 : core.CStateRestoreTraverser)
    (classifier : model.CDataClassifier) (clusterer : maths.CKMeansOnline1d)
    (hc : tc1.level.filter (fun e => model.CDataClassifier.knownTag e.name) =
      tc.level.filter (fun e => model.CDataClassifier.knownTag e.name))
    (hk : tk1.level.filter (fun e => maths.CKMeansOnline1d.knownTag e.name) =
      tk.level.filter (fun e => maths.CKMeansOnline1d.knownTag e.name)) :
    model.CDataClassifier.acceptRestoreTraverser stringToInt tc1 classifier =
      model.CDataClassifier.acceptRestoreTraverser stringToInt tc classifier ∧
    maths.CKMeansOnline1d.acceptRestoreTraverser restoreNormal params tk1 clusterer =
      maths.CKMeansOnline1d.acceptRestoreTraverser restoreNormal params tk clusterer := by
  constructor
  · simp only [model.CDataClassifier.acceptRestoreTraverser,
      model.CDataClassifier.flags_restoreLoop_eq_restoreList]
    have h1 := model.CDataClassifier.flags_restoreList_filter stringToInt tc1.level classifier
    have h2 := model.CDataClassifier.flags_restoreList_filter stringToInt tc.level classifier
    simp only [core.CStateRestoreTraverser.level] at h1 h2 hc
    rw [← h1, ← h2, hc]
  · simp only [maths.CKMeansOnline1d.acceptRestoreTraverser,
      maths.CKMeansOnline1d.clusters_restoreLoop_eq_restoreList]
    have h1 := maths.CKMeansOnline1d.clusters_restoreList_filter restoreNormal params tk1.level clusterer
    have h2 := maths.CKMeansOnline1d.clusters_restoreList_filter restoreNormal params tk.level clusterer
    simp only [core.CStateRestoreTraverser.level] at h1 h2 hk
    rw [← h1, ← h2, hk]

/-- Witness of C9: the documents `a=1, b=0` and `zz=7, a=1, q=x, b=0` for the
classifier, and the documents `a` and `x, a, y` for the clusterer. -/
theorem unknown_tags_are_skipped_witness :
    model.CDataClassifier.acceptRestoreTraverser model.CDataClassifier.parseFlag
        ⟨.node "zz" "7" [], [.node "a" "1" [], .node "q" "x" [], .node "b" "0" []]⟩
        ⟨false, true⟩ =
      model.CDataClassifier.acceptRestoreTraverser model.CDataClassifier.parseFlag
        ⟨.node "a" "1" [], [.node "b" "0" []]⟩ ⟨false, true⟩ ∧
    maths.CKMeansOnline1d.acceptRestoreTraverser (fun (_ : Unit) _ => ⟨1, 2, 3⟩) ()
        ⟨.node "x" "" [], [.node "a" "" [], .node "y" "" []]⟩ ⟨[]⟩ =
      maths.CKMeansOnline1d.acceptRestoreTraverser (fun (_ : Unit) _ => ⟨1, 2, 3⟩) ()
        ⟨.node "a" "" [], []⟩ ⟨[]⟩ :=
  unknown_tags_are_skipped model.CDataClassifier.parseFlag (fun (_ : Unit) _ => ⟨1, 2, 3⟩) ()
    ⟨.node "a" "1" [], [.node "b" "0" []]⟩
    ⟨.node "zz" "7" [], [.node "a" "1" [], .node "q" "x" [], .node "b" "0" []]⟩
    ⟨.node "a" "" [], []⟩
    ⟨.node "x" "" [], [.node "a" "" [], .node "y" "" []]⟩
    ⟨false, true⟩ ⟨[]⟩ (by rfl) (by rfl)

/-- C10 as stated fails: the document with the single element `b=1` lacks the
is-integer tag "a", and restoring from it returns `true`. -/
theorem CDataClassifier_restore_missing_tag_returns_true :
    (∀ e ∈ (core.CStateRestoreTraverser.mk (.node "b" "1" []) []).level,
        e.name ≠ model.IS_INTEGER_TAG) ∧
    (model.CDataClassifier.acceptRestoreTraverser model.CDataClassifier.parseFlag
        ⟨.node "b" "1" [], []⟩ ⟨true, false⟩).1 = true := by
  constructor
  · intro e he
    simp only [core.CStateRestoreTraverser.level, List.mem_singleton] at he
    subst he
    decide
  · decide

/-- C10, amended: `acceptRestoreTraverser` returns `false` exactly when the value
of some element tagged "a" or "b" does not parse as an integer. A document
without an element tagged "a" leaves `m_IsInteger` as it was, and one without an
element tagged "b" leaves `m_IsNonNegative` as it was. -/
theorem CDataClassifier_restore_fails_iff_unparsable (stringToInt : String → Option ℤ)
    (t : core.CStateRestoreTraverser) (self : model.CDataClassifier) :
    ((model.CDataClassifier.acceptRestoreTraverser stringToInt t self).1 = false ↔
      ∃ e ∈ t.level, model.CDataClassifier.knownTag e.name = true ∧
        stringToInt e.value = none) ∧
    ((∀ e ∈ t.level, e.name ≠ model.IS_INTEGER_TAG) →
      (model.CDataClassifier.acceptRestoreTraverser stringToInt t self).2.m_IsInteger =
        self.m_IsInteger) ∧
    ((∀ e ∈ t.level, e.name ≠ model.IS_NON_NEGATIVE_TAG) →
      (model.CDataClassifier.acceptRestoreTraverser stringToInt t self).2.m_IsNonNegative =
        self.m_IsNonNegative) := by
  simp only [model.CDataClassifier.acceptRestoreTraverser,
    model.CDataClassifier.flags_restoreLoop_eq_restoreList, core.CStateRestoreTraverser.level]
  exact ⟨model.CDataClassifier.restoreList_false_iff stringToInt _ self,
    model.CDataClassifier.restoreList_isInteger_unchanged stringToInt _ self,
    model.CDataClassifier.restoreList_isNonNegative_unchanged stringToInt _ self⟩

/-- Witness of the amended C10: restoring from the document `b=1`, which has no
element tagged "a", leaves `m_IsInteger` as it was. -/
theorem CDataClassifier_restore_fails_iff_unparsable_witness :
    (model.CDataClassifier.acceptRestoreTraverser model.CDataClassifier.parseFlag
        ⟨.node "b" "1" [], []⟩ ⟨true, false⟩).2.m_IsInteger = true :=
  (CDataClassifier_restore_fails_iff_unparsable model.CDataClassifier.parseFlag
    ⟨.node "b" "1" [], []⟩ ⟨true, false⟩).2.1 (by
      intro e he
      simp only [core.CStateRestoreTraverser.level, List.mem_singleton] at he
      subst he
      decide)

end ml

namespace ml

namespace maths

open AdaptiveBucketing

theorem chain_mem_le : ∀ (l : List (ℚ × ℚ)) (a b : ℚ), Chain a l b →
    ∀ i ∈ l, i.1 ≤ i.2 := by
  intro l
  induction l with
  | nil => intro a b _ i hi; cases hi
  | cons j rest ih =>
    intro a b h i hi
    obtain ⟨_, h2, h3⟩ := h
    rcases List.mem_cons.1 hi with rfl | hmem
    · exact h2
    · exact ih _ _ h3 i hmem

end maths

end ml

namespace ml

namespace maths

open AdaptiveBucketing

end maths

end ml

namespace ml

namespace maths

open AdaptiveBucketing

end maths

end ml

namespace ml

namespace maths

open AdaptiveBucketing

end maths

end ml

namespace ml

namespace maths

/-- C4 as stated fails: for the bucket with coefficient covariance
`[[2, -1], [-1, 1]]` the drift variance is 2 at elapsed time 0 and 1 at
elapsed time 1. -/
theorem drift_variance_decreases_for_negative_covariance :
    negativelyCorrelatedBucket.regression.covInterceptSlope ≠ 0 ∧
    (0 : ℚ) ≤ 0 ∧ (0 : ℚ) ≤ 1 ∧
    negativelyCorrelatedBucket.varianceDueToParameterDrift 1 <
      negativelyCorrelatedBucket.varianceDueToParameterDrift 0 := by
  norm_num [negativelyCorrelatedBucket, BucketModel.varianceDueToParameterDrift]

/-- C4, amended: with `Var(slope) ≥ 0`, the drift variance
`Var(intercept) + 2*t*Cov(intercept,slope) + t²*Var(slope)` is non-decreasing in
the elapsed time `t` from every `t1` on with `Cov(intercept,slope) +
t1*Var(slope) ≥ 0`; this is every `t1 ≥ 0` when `Cov(intercept,slope) ≥ 0`. -/
theorem drift_variance_monotone_past_turning_point (b : BucketModel) (t1 t2 : ℚ)
    (hvar : 0 ≤ b.regression.varSlope) (h12 : t1 ≤ t2)
    (hturn : 0 ≤ b.regression.covInterceptSlope + t1 * b.regression.varSlope) :
    b.varianceDueToParameterDrift t1 ≤ b.varianceDueToParameterDrift t2 := by
  simp only [BucketModel.varianceDueToParameterDrift]
  have hd : 0 ≤ t2 - t1 := by linarith
  have h1 : 0 ≤ (t2 - t1) * (b.regression.covInterceptSlope + t1 * b.regression.varSlope) :=
    mul_nonneg hd hturn
  have h2 : 0 ≤ (t2 - t1) * ((t2 - t1) * b.regression.varSlope) :=
    mul_nonneg hd (mul_nonneg hd hvar)
  nlinarith [h1, h2]

/-- Witness of the amended C4: the bucket with covariance `[[2, -1], [-1, 1]]`
past its turning point, from elapsed time 1 to elapsed time 3. -/
theorem drift_variance_monotone_past_turning_point_witness :
    negativelyCorrelatedBucket.varianceDueToParameterDrift 1 ≤
      negativelyCorrelatedBucket.varianceDueToParameterDrift 3 :=
  drift_variance_monotone_past_turning_point negativelyCorrelatedBucket 1 3
    (by norm_num [negativelyCorrelatedBucket]) (by norm_num)
    (by norm_num [negativelyCorrelatedBucket])

end maths

end ml

namespace ml

namespace maths

end maths

end ml

namespace ml

/-- C13: for every classifier state, the document `acceptPersistInserter` writes
has a first element, and `acceptRestoreTraverser` on it returns `true` and
yields a classifier with the same `isInteger()` and `isNonNegative()`, whatever
the classifier restored into held before. The integer conversions of the
inserter and of `RESTORE_BOOL` are parameters that take 0 and 1 to text and
back. -/
theorem CDataClassifier_persistence_round_trip (intToString : ℤ → String)
    (stringToInt : String → Option ℤ) (self start : model.CDataClassifier)
    (h0 : stringToInt (intToString 0) = some 0)
    (h1 : stringToInt (intToString 1) = some 1) :
    ∃ t, core.CStateRestoreTraverser.ofLevel (self.acceptPersistInserter intToString) = some t ∧
      (model.CDataClassifier.acceptRestoreTraverser stringToInt t start).1 = true ∧
      (model.CDataClassifier.acceptRestoreTraverser stringToInt t start).2.isInteger
        = self.isInteger ∧
      (model.CDataClassifier.acceptRestoreTraverser stringToInt t start).2.isNonNegative
        = self.isNonNegative := by
  refine ⟨_, rfl, ?_⟩
  have hab : ¬ model.IS_NON_NEGATIVE_TAG = model.IS_INTEGER_TAG := by decide
  obtain ⟨i, n⟩ := self
  cases i <;> cases n <;>
    simp [model.CDataClassifier.acceptRestoreTraverser, model.CDataClassifier.restoreLoop,
      core.StateNode.name, core.StateNode.value, hab, h0, h1,
      model.CDataClassifier.isInteger, model.CDataClassifier.isNonNegative]

/-- Witness of C13: the classifier (integer, not non-negative) restored into a
classifier (not integer, non-negative), with the texts "0" and "1". -/
theorem CDataClassifier_persistence_round_trip_witness :
    ∃ t, core.CStateRestoreTraverser.ofLevel
        (model.CDataClassifier.acceptPersistInserter model.CDataClassifier.printFlag
          ⟨true, false⟩) = some t ∧
      (model.CDataClassifier.acceptRestoreTraverser model.CDataClassifier.parseFlag t
        ⟨false, true⟩).1 = true ∧
      (model.CDataClassifier.acceptRestoreTraverser model.CDataClassifier.parseFlag t
        ⟨false, true⟩).2.isInteger = model.CDataClassifier.isInteger ⟨true, false⟩ ∧
      (model.CDataClassifier.acceptRestoreTraverser model.CDataClassifier.parseFlag t
        ⟨false, true⟩).2.isNonNegative = model.CDataClassifier.isNonNegative ⟨true, false⟩ :=
  CDataClassifier_persistence_round_trip model.CDataClassifier.printFlag
    model.CDataClassifier.parseFlag ⟨true, false⟩ ⟨false, true⟩ (by decide) (by decide)

end ml

namespace ml

namespace maths

theorem sortInsert_perm {α : Type} (comp : α → α → Bool) (x : α) :
    ∀ l : List α, (sortInsert comp x l).Perm (x :: l) := by
  intro l
  induction l with
  | nil => exact List.Perm.refl _
  | cons y ys ih =>
    simp only [sortInsert]
    split_ifs
    · exact List.Perm.refl _
    · exact (List.Perm.cons y ih).trans (List.Perm.swap x y ys)

theorem std_sort_perm {α : Type} (comp : α → α → Bool) :
    ∀ l : List α, (std_sort comp l).Perm l := by
  intro l
  induction l with
  | nil => exact List.Perm.refl _
  | cons x xs ih =>
    exact (sortInsert_perm comp x _).trans (List.Perm.cons x ih)

theorem sortInsert_sorted_by_mean (x : CNormalMeanPrecConjugate) :
    ∀ l : List CNormalMeanPrecConjugate,
      l.Pairwise (fun a b => a.marginalLikelihoodMean ≤ b.marginalLikelihoodMean) →
      (sortInsert detail.SNormalMeanLess.normals x l).Pairwise
        (fun a b => a.marginalLikelihoodMean ≤ b.marginalLikelihoodMean) := by
  intro l
  induction l with
  | nil => intro _; simp [sortInsert]
  | cons y ys ih =>
    intro h
    obtain ⟨hy, hys⟩ := List.pairwise_cons.1 h
    simp only [sortInsert]
    split_ifs with hlt
    · have hxy : x.marginalLikelihoodMean < y.marginalLikelihoodMean := by
        simpa [detail.SNormalMeanLess.normals] using hlt
      refine List.pairwise_cons.2 ⟨?_, h⟩
      intro z hz
      rcases List.mem_cons.1 hz with rfl | hz
      · exact hxy.le
      · exact hxy.le.trans (hy z hz)
    · have hyx : y.marginalLikelihoodMean ≤ x.marginalLikelihoodMean := by
        have : ¬ x.marginalLikelihoodMean < y.marginalLikelihoodMean := by
          simpa [detail.SNormalMeanLess.normals] using hlt
        exact not_lt.1 this
      refine List.pairwise_cons.2 ⟨?_, ih hys⟩
      intro z hz
      have hz1 : z ∈ x :: ys := (sortInsert_perm _ x ys).subset hz
      rcases List.mem_cons.1 hz1 with rfl | hz2
      · exact hyx
      · exact hy z hz2

theorem std_sort_sorted_by_mean :
    ∀ l : List CNormalMeanPrecConjugate,
      (std_sort detail.SNormalMeanLess.normals l).Pairwise
        (fun a b => a.marginalLikelihoodMean ≤ b.marginalLikelihoodMean) := by
  intro l
  induction l with
  | nil => exact List.Pairwise.nil
  | cons x xs ih => exact sortInsert_sorted_by_mean x _ ih

/-- C16: for every input vector of normals the constructor stores a permutation
of the input whose `marginalLikelihoodMean` is non-decreasing with the index,
`numberClusters()` is the input length, and the argument itself is left in
that order. -/
theorem CKMeansOnline1d_constructor_orders_by_mean (clusters : List CNormalMeanPrecConjugate) :
    (CKMeansOnline1d.create clusters).1.m_Clusters.Perm clusters ∧
    (CKMeansOnline1d.create clusters).1.m_Clusters.Pairwise
      (fun a b => a.marginalLikelihoodMean ≤ b.marginalLikelihoodMean) ∧
    (∀ (i j : ℕ) (hi : i < (CKMeansOnline1d.create clusters).1.m_Clusters.length)
        (hj : j < (CKMeansOnline1d.create clusters).1.m_Clusters.length), i ≤ j →
      ((CKMeansOnline1d.create clusters).1.m_Clusters.get ⟨i, hi⟩).marginalLikelihoodMean ≤
        ((CKMeansOnline1d.create clusters).1.m_Clusters.get ⟨j, hj⟩).marginalLikelihoodMean) ∧
    (CKMeansOnline1d.create clusters).1.numberClusters = clusters.length ∧
    (CKMeansOnline1d.create clusters).2 = (CKMeansOnline1d.create clusters).1.m_Clusters := by
  have hperm := std_sort_perm detail.SNormalMeanLess.normals clusters
  have hsorted := std_sort_sorted_by_mean clusters
  refine ⟨hperm, hsorted, ?_, hperm.length_eq, rfl⟩
  intro i j hi hj hij
  rcases Nat.lt_or_eq_of_le hij with hlt | heq
  · exact List.pairwise_iff_get.1 hsorted ⟨i, hi⟩ ⟨j, hj⟩ hlt
  · subst heq
    exact le_refl _

theorem weightSumFrom_eq (cs : List CNormalMeanPrecConjugate) :
    ∀ w : ℚ, CKMeansOnline1d.weightSumFrom w cs
      = w + (cs.map CNormalMeanPrecConjugate.numberSamples).sum := by
  induction cs with
  | nil => intro w; simp [CKMeansOnline1d.weightSumFrom]
  | cons c cs ih =>
    intro w
    simp only [CKMeansOnline1d.weightSumFrom, ih, List.map_cons, List.sum_cons]
    ring

theorem probability_of_cluster (self : CKMeansOnline1d) (i : ℕ)
    (hi : i < self.m_Clusters.length) :
    self.probability i =
      if (self.m_Clusters.map CNormalMeanPrecConjugate.numberSamples).sum = 0 then 0
      else (self.m_Clusters.get ⟨i, hi⟩).numberSamples /
        (self.m_Clusters.map CNormalMeanPrecConjugate.numberSamples).sum := by
  have hc : ¬ ¬ (self.hasCluster i = true) := by
    simp [CKMeansOnline1d.hasCluster, hi]
  simp only [CKMeansOnline1d.probability, dif_neg hc, weightSumFrom_eq, zero_add]

theorem sum_range_get_div (total : ℚ) :
    ∀ (cs : List CNormalMeanPrecConjugate) (f : ℕ → ℚ),
      (∀ (i : ℕ) (hi : i < cs.length), f i = (cs.get ⟨i, hi⟩).numberSamples / total) →
      Finset.sum (Finset.range cs.length) f
        = (cs.map CNormalMeanPrecConjugate.numberSamples).sum / total := by
  intro cs
  induction cs with
  | nil => intro f _; simp
  | cons c cs ih =>
    intro f hf
    rw [List.length_cons, Finset.sum_range_succ']
    have h0 : f 0 = c.numberSamples / total := hf 0 (Nat.succ_pos _)
    have hrest := ih (fun i => f (i + 1)) (fun i hi => hf (i + 1) (Nat.succ_lt_succ hi))
    rw [hrest, h0, List.map_cons, List.sum_cons]
    ring

theorem get_numberSamples_le_sum :
    ∀ (cs : List CNormalMeanPrecConjugate), (∀ c ∈ cs, 0 ≤ c.numberSamples) →
      ∀ (i : ℕ) (hi : i < cs.length),
        (cs.get ⟨i, hi⟩).numberSamples ≤ (cs.map CNormalMeanPrecConjugate.numberSamples).sum := by
  intro cs
  induction cs with
  | nil => intro _ i hi; exact absurd hi (Nat.not_lt_zero _)
  | cons c cs ih =>
    intro hnn i hi
    have hc : 0 ≤ c.numberSamples := hnn c (List.mem_cons_self _ _)
    have hcs : ∀ d ∈ cs, 0 ≤ d.numberSamples := fun d hd => hnn d (List.mem_cons_of_mem _ hd)
    have hsum : 0 ≤ (cs.map CNormalMeanPrecConjugate.numberSamples).sum :=
      List.sum_nonneg (by
        intro x hx
        obtain ⟨d, hd, rfl⟩ := List.mem_map.1 hx
        exact hcs d hd)
    rw [List.map_cons, List.sum_cons]
    cases i with
    | zero => simpa using hsum
    | succ k =>
      have := ih hcs k (Nat.lt_of_succ_lt_succ hi)
      simp only [List.get_eq_getElem, List.getElem_cons_succ] at this ⊢
      linarith

/-- C17: `probability(i)` is 0 for every `i ≥ numberClusters()`; for an existing
cluster it is `numberSamples(i) / Σ_j numberSamples(j)` when that sum is not
zero and 0 when it is zero; so with non-negative sample counts and a non-zero
total every probability lies in `[0, 1]` and the probabilities of the existing
clusters sum to 1. -/
theorem probability_is_distribution (self : CKMeansOnline1d) :
    (∀ i, self.numberClusters ≤ i → self.probability i = 0) ∧
    (∀ (i : ℕ) (hi : i < self.m_Clusters.length),
      (self.m_Clusters.map CNormalMeanPrecConjugate.numberSamples).sum ≠ 0 →
      self.probability i = (self.m_Clusters.get ⟨i, hi⟩).numberSamples /
        (self.m_Clusters.map CNormalMeanPrecConjugate.numberSamples).sum) ∧
    ((self.m_Clusters.map CNormalMeanPrecConjugate.numberSamples).sum = 0 →
      ∀ i, self.probability i = 0) ∧
    ((∀ c ∈ self.m_Clusters, 0 ≤ c.numberSamples) →
      (self.m_Clusters.map CNormalMeanPrecConjugate.numberSamples).sum ≠ 0 →
      (∀ i, 0 ≤ self.probability i ∧ self.probability i ≤ 1) ∧
      Finset.sum (Finset.range self.numberClusters) (fun i => self.probability i) = 1) := by
  have hout : ∀ i, self.numberClusters ≤ i → self.probability i = 0 := by
    intro i hi
    have hc : ¬ (self.hasCluster i = true) := by
      simp only [CKMeansOnline1d.hasCluster, decide_eq_true_eq, not_lt]
      exact hi
    simp only [CKMeansOnline1d.probability, dif_pos hc]
  refine ⟨hout, ?_, ?_, ?_⟩
  · intro i hi hsum
    rw [probability_of_cluster self i hi, if_neg hsum]
  · intro hsum i
    by_cases hi : i < self.m_Clusters.length
    · rw [probability_of_cluster self i hi, if_pos hsum]
    · exact hout i (not_lt.1 hi)
  · intro hnn hsum
    have hpos : 0 < (self.m_Clusters.map CNormalMeanPrecConjugate.numberSamples).sum := by
      refine lt_of_le_of_ne (List.sum_nonneg ?_) (Ne.symm hsum)
      intro x hx
      obtain ⟨d, hd, rfl⟩ := List.mem_map.1 hx
      exact hnn d hd
    constructor
    · intro i
      by_cases hi : i < self.m_Clusters.length
      · rw [probability_of_cluster self i hi, if_neg hsum]
        constructor
        · exact div_nonneg (hnn _ (List.get_mem _ _ _)) hpos.le
        · rw [div_le_one hpos]
          exact get_numberSamples_le_sum _ hnn i hi
      · rw [hout i (not_lt.1 hi)]
        exact ⟨le_refl _, zero_le_one⟩
    · have h := sum_range_get_div
        (self.m_Clusters.map CNormalMeanPrecConjugate.numberSamples).sum self.m_Clusters
        (fun i => self.probability i)
        (fun i hi => by
          show self.probability i = _
          rw [probability_of_cluster self i hi, if_neg hsum])
      show Finset.sum (Finset.range self.m_Clusters.length) _ = 1
      rw [h]
      exact div_self hsum

/-- Witness of C17: two clusters with 1 and 3 samples have the probabilities
1/4 and 3/4, which sum to 1. -/
theorem probability_is_distribution_witness :
    (∀ i, 0 ≤ CKMeansOnline1d.probability ⟨[⟨0, 1, 1⟩, ⟨10, 1, 3⟩]⟩ i ∧
      CKMeansOnline1d.probability ⟨[⟨0, 1, 1⟩, ⟨10, 1, 3⟩]⟩ i ≤ 1) ∧
    Finset.sum (Finset.range (CKMeansOnline1d.numberClusters ⟨[⟨0, 1, 1⟩, ⟨10, 1, 3⟩]⟩))
      (fun i => CKMeansOnline1d.probability ⟨[⟨0, 1, 1⟩, ⟨10, 1, 3⟩]⟩ i) = 1 :=
  (probability_is_distribution ⟨[⟨0, 1, 1⟩, ⟨10, 1, 3⟩]⟩).2.2.2
    (by
      intro c hc
      simp only [List.mem_cons, List.mem_singleton, List.not_mem_nil, or_false] at hc
      rcases hc with rfl | rfl <;> norm_num)
    (by norm_num)

end maths

end ml

namespace ml

namespace maths

theorem lowerBoundLoop_partition {α : Type} (xs : List α) (less : α → Bool)
    (hpart : ∀ (i j : ℕ) (hi : i < xs.length) (hj : j < xs.length), i ≤ j →
      less (xs.get ⟨j, hj⟩) = true → less (xs.get ⟨i, hi⟩) = true) :
    ∀ (fuel first len : ℕ) (hf : len ≤ fuel) (hb : first + len ≤ xs.length),
      (∀ (i : ℕ) (hi : i < xs.length), i < first → less (xs.get ⟨i, hi⟩) = true) →
      (∀ (i : ℕ) (hi : i < xs.length), first + len ≤ i → less (xs.get ⟨i, hi⟩) = false) →
      (∀ (i : ℕ) (hi : i < xs.length), i < (lowerBoundLoop xs less fuel first len hf hb).1 →
        less (xs.get ⟨i, hi⟩) = true) ∧
      (∀ (i : ℕ) (hi : i < xs.length), (lowerBoundLoop xs less fuel first len hf hb).1 ≤ i →
        less (xs.get ⟨i, hi⟩) = false) := by
  intro fuel
  induction fuel with
  | zero =>
    intro first len hf hb hlow hhigh
    have hlen : len = 0 := by omega
    subst hlen
    simp only [lowerBoundLoop]
    exact ⟨hlow, fun i hi h => hhigh i hi (by omega)⟩
  | succ fuel ih =>
    intro first len hf hb hlow hhigh
    rw [lowerBoundLoop]
    by_cases hlen : 0 < len
    · rw [dif_pos hlen]
      have hhalf : len / 2 < len := Nat.div_lt_self hlen (by decide)
      have hm : first + len / 2 < xs.length := by omega
      by_cases hless : less (xs.get ⟨first + len / 2, hm⟩) = true
      · dsimp only
        rw [if_pos hless]
        apply ih
        · intro i hi hlt
          exact hpart i (first + len / 2) hi hm (by omega) hless
        · intro i hi hge
          exact hhigh i hi (by omega)
      · dsimp only
        rw [if_neg hless]
        apply ih
        · exact hlow
        · intro i hi hge
          cases hv : less (xs.get ⟨i, hi⟩) with
          | false => rfl
          | true =>
            have := hpart (first + len / 2) i hm hi hge hv
            exact absurd this hless
    · rw [dif_neg hlen]
      have hlen0 : len = 0 := by omega
      subst hlen0
      refine ⟨hlow, fun i hi h => hhigh i hi ?_⟩
      have h2 : first ≤ i := h
      omega

theorem lower_bound_partition {α : Type} (xs : List α) (less : α → Bool)
    (hpart : ∀ (i j : ℕ) (hi : i < xs.length) (hj : j < xs.length), i ≤ j →
      less (xs.get ⟨j, hj⟩) = true → less (xs.get ⟨i, hi⟩) = true) :
    (∀ (i : ℕ) (hi : i < xs.length), i < (lower_bound xs less).1 →
      less (xs.get ⟨i, hi⟩) = true) ∧
    (∀ (i : ℕ) (hi : i < xs.length), (lower_bound xs less).1 ≤ i →
      less (xs.get ⟨i, hi⟩) = false) := by
  unfold lower_bound
  apply lowerBoundLoop_partition xs less hpart
  · intro i hi h; exact absurd h (Nat.not_lt_zero _)
  · intro i hi h; omega

theorem sorted_means_partition (cs : List CNormalMeanPrecConjugate) (point : ℚ)
    (hsorted : cs.Pairwise
      (fun a b => a.marginalLikelihoodMean ≤ b.marginalLikelihoodMean)) :
    ∀ (i j : ℕ) (hi : i < cs.length) (hj : j < cs.length), i ≤ j →
      detail.SNormalMeanLess (cs.get ⟨j, hj⟩) point = true →
      detail.SNormalMeanLess (cs.get ⟨i, hi⟩) point = true := by
  intro i j hi hj hij hless
  simp only [detail.SNormalMeanLess, decide_eq_true_eq] at hless ⊢
  rcases Nat.lt_or_eq_of_le hij with hlt | heq
  · have := List.pairwise_iff_get.1 hsorted ⟨i, hi⟩ ⟨j, hj⟩ hlt
    exact lt_of_le_of_lt this hless
  · subst heq
    exact hless

theorem cluster_of_empty (env : MathsEnv) (self : CKMeansOnline1d) (point count : ℚ)
    (result : List (ℕ × ℚ)) (h : self.m_Clusters = []) :
    self.cluster env point result count = [] := by
  simp [CKMeansOnline1d.cluster, h]

theorem cluster_past_the_end (env : MathsEnv) (self : CKMeansOnline1d) (point count : ℚ)
    (result : List (ℕ × ℚ)) (hne : self.m_Clusters ≠ [])
    (hend : (lower_bound self.m_Clusters (fun c => detail.SNormalMeanLess c point)).1
      = self.m_Clusters.length) :
    self.cluster env point result count = [(self.m_Clusters.length - 1, count)] := by
  have hemp : self.m_Clusters.isEmpty = false := by
    cases h : self.m_Clusters with
    | nil => exact absurd h hne
    | cons a l => rfl
  unfold CKMeansOnline1d.cluster
  simp only [hemp, Bool.false_eq_true, if_false]
  rw [dif_pos hend, hend]

theorem cluster_before_the_first (env : MathsEnv) (self : CKMeansOnline1d) (point count : ℚ)
    (result : List (ℕ × ℚ)) (hne : self.m_Clusters ≠ [])
    (hbegin : (lower_bound self.m_Clusters (fun c => detail.SNormalMeanLess c point)).1 = 0) :
    self.cluster env point result count = [(0, count)] := by
  have hemp : self.m_Clusters.isEmpty = false := by
    cases h : self.m_Clusters with
    | nil => exact absurd h hne
    | cons a l => rfl
  have hlen : 0 < self.m_Clusters.length := List.length_pos.2 hne
  have hend : ¬ (lower_bound self.m_Clusters (fun c => detail.SNormalMeanLess c point)).1
      = self.m_Clusters.length := by omega
  unfold CKMeansOnline1d.cluster
  simp only [hemp, Bool.false_eq_true, if_false]
  rw [dif_neg hend, dif_pos hbegin]

theorem cluster_between_neighbours (env : MathsEnv) (self : CKMeansOnline1d) (point count : ℚ)
    (result : List (ℕ × ℚ)) (right : ℕ)
    (hright : (lower_bound self.m_Clusters (fun c => detail.SNormalMeanLess c point)).1 = right)
    (h0 : right ≠ 0) (hr : right < self.m_Clusters.length)
    (hl : right - 1 < self.m_Clusters.length) :
    self.cluster env point result count =
      CKMeansOnline1d.assignBetween env (right - 1) right
        (detail.logLikelihoodFromCluster env [point] (self.m_Clusters.get ⟨right - 1, hl⟩))
        (detail.logLikelihoodFromCluster env [point] (self.m_Clusters.get ⟨right, hr⟩))
        count := by
  subst hright
  have hemp : self.m_Clusters.isEmpty = false := by
    cases h : self.m_Clusters with
    | nil => rw [h] at hr; exact absurd hr (Nat.not_lt_zero _)
    | cons a l => rfl
  unfold CKMeansOnline1d.cluster
  simp only [hemp, Bool.false_eq_true, if_false]
  rw [dif_neg (Nat.ne_of_lt hr), dif_neg h0]
  rfl

theorem normalisedWeights_sum (env : MathsEnv) (likelihoodLeft likelihoodRight : ℚ)
    (hexp0 : env.exp 0 = 1) (hexp : ∀ x, 0 ≤ env.exp x) :
    (CKMeansOnline1d.normalisedWeights env likelihoodLeft likelihoodRight).1 +
      (CKMeansOnline1d.normalisedWeights env likelihoodLeft likelihoodRight).2 = 1 := by
  simp only [CKMeansOnline1d.normalisedWeights]
  rw [← add_div]
  apply div_self
  split_ifs with h
  · rw [sub_self, hexp0]
    have := hexp (likelihoodLeft - likelihoodRight)
    linarith
  · rw [sub_self, hexp0]
    have := hexp (likelihoodRight - likelihoodLeft)
    linarith

end maths

end ml

namespace ml

namespace maths

/-- C14: with clusters sorted by mean and an exponential that is 1 at 0 and never
negative (finite likelihoods), `cluster(point, result, count)` drops what
`result` held; for an empty cluster set it leaves `result` empty; otherwise it
fills it with a single entry `(i, count)` or with two entries `(i, w1)`,
`(i + 1, w2)` with `w1 + w2 = count`, every index below `numberClusters()`; the
single entry is the last cluster if the point is greater than every mean and
cluster 0 if the point is not greater than the first mean. -/
theorem cluster_assignment_partitions_count (env : MathsEnv) (self : CKMeansOnline1d)
    (point count : ℚ) (result : List (ℕ × ℚ))
    (hexp0 : env.exp 0 = 1) (hexp : ∀ x, 0 ≤ env.exp x)
    (hsorted : self.m_Clusters.Pairwise
      (fun a b => a.marginalLikelihoodMean ≤ b.marginalLikelihoodMean)) :
    self.cluster env point result count = self.cluster env point [] count ∧
    (self.m_Clusters = [] → self.cluster env point result count = []) ∧
    (self.m_Clusters ≠ [] →
      ((∃ i, i < self.numberClusters ∧ self.cluster env point result count = [(i, count)]) ∨
        (∃ i w1 w2, i + 1 < self.numberClusters ∧
          self.cluster env point result count = [(i, w1), (i + 1, w2)] ∧ w1 + w2 = count)) ∧
      (∀ e ∈ self.cluster env point result count, e.1 < self.numberClusters) ∧
      ((∀ c ∈ self.m_Clusters, c.marginalLikelihoodMean < point) →
        self.cluster env point result count = [(self.numberClusters - 1, count)]) ∧
      (∀ first, self.m_Clusters.head? = some first →
        ¬ first.marginalLikelihoodMean < point →
        self.cluster env point result count = [(0, count)])) := by
  refine ⟨rfl, cluster_of_empty env self point count result, ?_⟩
  intro hne
  have hlen : 0 < self.m_Clusters.length := List.length_pos.2 hne
  have hpart := lower_bound_partition self.m_Clusters (fun c => detail.SNormalMeanLess c point)
    (sorted_means_partition self.m_Clusters point hsorted)
  have hle := (lower_bound self.m_Clusters (fun c => detail.SNormalMeanLess c point)).2
  have hshape :
      (∃ i, i < self.numberClusters ∧ self.cluster env point result count = [(i, count)]) ∨
      (∃ i w1 w2, i + 1 < self.numberClusters ∧
        self.cluster env point result count = [(i, w1), (i + 1, w2)] ∧ w1 + w2 = count) := by
    by_cases hend : (lower_bound self.m_Clusters (fun c => detail.SNormalMeanLess c point)).1
        = self.m_Clusters.length
    · left
      refine ⟨self.m_Clusters.length - 1, ?_, cluster_past_the_end env self point count result
        hne hend⟩
      show self.m_Clusters.length - 1 < self.m_Clusters.length
      omega
    · by_cases hbegin :
          (lower_bound self.m_Clusters (fun c => detail.SNormalMeanLess c point)).1 = 0
      · left
        exact ⟨0, hlen, cluster_before_the_first env self point count result hne hbegin⟩
      · obtain ⟨r, hrdef⟩ : ∃ r,
            (lower_bound self.m_Clusters (fun c => detail.SNormalMeanLess c point)).1 = r :=
          ⟨_, rfl⟩
        rw [hrdef] at hend hbegin hle
        have hr : r < self.m_Clusters.length := lt_of_le_of_ne hle hend
        have hl : r - 1 < self.m_Clusters.length := by omega
        have hsucc : r - 1 + 1 = r := by omega
        rw [cluster_between_neighbours env self point count result r hrdef hbegin hr hl]
        have hsum := normalisedWeights_sum env
          (detail.logLikelihoodFromCluster env [point] (self.m_Clusters.get ⟨r - 1, hl⟩))
          (detail.logLikelihoodFromCluster env [point] (self.m_Clusters.get ⟨r, hr⟩))
          hexp0 hexp
        simp only [CKMeansOnline1d.assignBetween]
        generalize CKMeansOnline1d.normalisedWeights env
          (detail.logLikelihoodFromCluster env [point] (self.m_Clusters.get ⟨r - 1, hl⟩))
          (detail.logLikelihoodFromCluster env [point] (self.m_Clusters.get ⟨r, hr⟩)) = p
          at hsum ⊢
        split_ifs
        · left
          exact ⟨r, hr, rfl⟩
        · left
          exact ⟨r - 1, hl, rfl⟩
        · right
          refine ⟨r - 1, count * p.1, count * p.2, ?_, ?_, ?_⟩
          · show r - 1 + 1 < self.m_Clusters.length
            rw [hsucc]; exact hr
          · rw [hsucc]
          · rw [← mul_add, hsum, mul_one]
  refine ⟨hshape, ?_, ?_, ?_⟩
  · intro e he
    rcases hshape with ⟨i, hi, hc⟩ | ⟨i, w1, w2, hi, hc, _⟩
    · rw [hc] at he
      rw [List.mem_singleton.1 he]
      exact hi
    · rw [hc] at he
      simp only [List.mem_cons, List.mem_singleton, List.not_mem_nil, or_false] at he
      rcases he with rfl | rfl
      · exact Nat.lt_of_succ_lt hi
      · exact hi
  · intro hall
    apply cluster_past_the_end env self point count result hne
    by_contra hend
    have hr : (lower_bound self.m_Clusters (fun c => detail.SNormalMeanLess c point)).1
        < self.m_Clusters.length := lt_of_le_of_ne hle hend
    have hfalse : detail.SNormalMeanLess (self.m_Clusters.get ⟨_, hr⟩) point = false :=
      hpart.2 _ hr (le_refl _)
    have htrue : detail.SNormalMeanLess (self.m_Clusters.get ⟨_, hr⟩) point = true := by
      simp only [detail.SNormalMeanLess, decide_eq_true_eq]
      exact hall _ (List.get_mem _ _ _)
    rw [htrue] at hfalse
    exact Bool.noConfusion hfalse
  · intro first hfirst hnot
    apply cluster_before_the_first env self point count result hne
    by_contra hbegin
    have hpos : 0 < (lower_bound self.m_Clusters
        (fun c => detail.SNormalMeanLess c point)).1 := Nat.pos_of_ne_zero hbegin
    have htrue : detail.SNormalMeanLess (self.m_Clusters.get ⟨0, hlen⟩) point = true :=
      hpart.1 0 hlen hpos
    have hget : self.m_Clusters.get ⟨0, hlen⟩ = first := by
      have h0 : self.m_Clusters[0]? = some first := by
        rw [← List.head?_eq_getElem?]; exact hfirst
      rw [List.getElem?_eq_getElem hlen] at h0
      exact Option.some.inj h0
    rw [hget] at htrue
    simp only [detail.SNormalMeanLess, decide_eq_true_eq] at htrue
    exact hnot htrue

end maths

end ml

namespace ml

namespace maths

/-- Witness of C14: two clusters with the means 0 and 10, the point 5 between
them and a `result` that holds an entry before the call. -/
theorem cluster_assignment_partitions_count_witness :
    CKMeansOnline1d.cluster softEnv ⟨[⟨0, 1, 1⟩, ⟨10, 1, 1⟩]⟩ 5 [(7, 7)] 1 =
      CKMeansOnline1d.cluster softEnv ⟨[⟨0, 1, 1⟩, ⟨10, 1, 1⟩]⟩ 5 [] 1 ∧
    ∀ e ∈ CKMeansOnline1d.cluster softEnv ⟨[⟨0, 1, 1⟩, ⟨10, 1, 1⟩]⟩ 5 [(7, 7)] 1,
      e.1 < CKMeansOnline1d.numberClusters ⟨[⟨0, 1, 1⟩, ⟨10, 1, 1⟩]⟩ :=
  ⟨(cluster_assignment_partitions_count softEnv ⟨[⟨0, 1, 1⟩, ⟨10, 1, 1⟩]⟩ 5 1 [(7, 7)] (by
      simp [softEnv]) (by
      intro x
      simp only [softEnv]
      split_ifs <;> norm_num) (by simp)).1,
   ((cluster_assignment_partitions_count softEnv ⟨[⟨0, 1, 1⟩, ⟨10, 1, 1⟩]⟩ 5 1 [(7, 7)] (by
      simp [softEnv]) (by
      intro x
      simp only [softEnv]
      split_ifs <;> norm_num) (by simp)).2.2 (by simp)).2.1⟩

theorem hard_assignment_gate_iff (env : MathsEnv) (likelihoodLeft likelihoodRight : ℚ)
    (hsum : (CKMeansOnline1d.normalisedWeights env likelihoodLeft likelihoodRight).1 +
      (CKMeansOnline1d.normalisedWeights env likelihoodLeft likelihoodRight).2 = 1) :
    ((CKMeansOnline1d.normalisedWeights env likelihoodLeft likelihoodRight).1 <
        HARD_ASSIGNMENT_THRESHOLD *
          (CKMeansOnline1d.normalisedWeights env likelihoodLeft likelihoodRight).2 ↔
      100 / 101 < (CKMeansOnline1d.normalisedWeights env likelihoodLeft likelihoodRight).2) ∧
    ((CKMeansOnline1d.normalisedWeights env likelihoodLeft likelihoodRight).2 <
        HARD_ASSIGNMENT_THRESHOLD *
          (CKMeansOnline1d.normalisedWeights env likelihoodLeft likelihoodRight).1 ↔
      100 / 101 < (CKMeansOnline1d.normalisedWeights env likelihoodLeft likelihoodRight).1) := by
  generalize CKMeansOnline1d.normalisedWeights env likelihoodLeft likelihoodRight = p at hsum ⊢
  simp only [HARD_ASSIGNMENT_THRESHOLD]
  constructor <;> constructor <;> intro h <;> linarith

/-- C15 at a failing input: two clusters with the means 0 and 10, the point 5,
the count 1 and log likelihoods `-4.6` from the left and `0` from the right
cluster. The normalised weight of the right cluster is `250000/252513`, which
is at least 0.99, and `cluster` returns both neighbours, not the right one
alone. -/
theorem hard_assignment_threshold_evaluated :
    (99 : ℚ) / 100 ≤
      (CKMeansOnline1d.normalisedWeights softEnv
        (detail.logLikelihoodFromCluster softEnv [5] ⟨0, 1, 1⟩)
        (detail.logLikelihoodFromCluster softEnv [5] ⟨10, 1, 1⟩)).2 ∧
    (CKMeansOnline1d.normalisedWeights softEnv
        (detail.logLikelihoodFromCluster softEnv [5] ⟨0, 1, 1⟩)
        (detail.logLikelihoodFromCluster softEnv [5] ⟨10, 1, 1⟩)).1 +
      (CKMeansOnline1d.normalisedWeights softEnv
        (detail.logLikelihoodFromCluster softEnv [5] ⟨0, 1, 1⟩)
        (detail.logLikelihoodFromCluster softEnv [5] ⟨10, 1, 1⟩)).2 = 1 ∧
    CKMeansOnline1d.cluster softEnv ⟨[⟨0, 1, 1⟩, ⟨10, 1, 1⟩]⟩ 5 [] 1 =
      [(0, 2513 / 252513), (1, 250000 / 252513)] := by
  have hl : detail.logLikelihoodFromCluster softEnv [5] ⟨0, 1, 1⟩ = -23 / 5 := by
    norm_num [detail.logLikelihoodFromCluster, softEnv]
  have hr : detail.logLikelihoodFromCluster softEnv [5] ⟨10, 1, 1⟩ = 0 := by
    norm_num [detail.logLikelihoodFromCluster, softEnv]
  have hw : CKMeansOnline1d.normalisedWeights softEnv (-23 / 5) 0
      = (2513 / 252513, 250000 / 252513) := by
    norm_num [CKMeansOnline1d.normalisedWeights, softEnv]
  refine ⟨?_, ?_, ?_⟩
  · rw [hl, hr, hw]; norm_num
  · rw [hl, hr, hw]; norm_num
  · rw [cluster_between_neighbours softEnv ⟨[⟨0, 1, 1⟩, ⟨10, 1, 1⟩]⟩ 5 1 [] 1 (by decide)
      (by decide) (by decide) (by decide)]
    have hl2 : detail.logLikelihoodFromCluster softEnv [5]
        ((⟨[⟨0, 1, 1⟩, ⟨10, 1, 1⟩]⟩ : CKMeansOnline1d).m_Clusters.get ⟨1 - 1, by decide⟩)
        = -23 / 5 := hl
    have hr2 : detail.logLikelihoodFromCluster softEnv [5]
        ((⟨[⟨0, 1, 1⟩, ⟨10, 1, 1⟩]⟩ : CKMeansOnline1d).m_Clusters.get ⟨1, by decide⟩)
        = 0 := hr
    rw [hl2, hr2]
    simp only [CKMeansOnline1d.assignBetween, hw]
    norm_num [HARD_ASSIGNMENT_THRESHOLD]

end maths

end ml

namespace ml

namespace config

open CFieldStatistics

theorem addBody_buffer_of_le (self : CFieldStatistics) (time : ℤ) (exampleText : String)
    (h : self.m_Params.minimumExamplesToClassify ≤ self.m_NumberExamples + 1) :
    (addBody self time exampleText).m_Buffer = self.m_Buffer := by
  simp only [addBody]
  rw [if_neg (by omega)]

theorem addBody_summary_none (self : CFieldStatistics) (time : ℤ) (exampleText : String)
    (h : self.summary = none) : (addBody self time exampleText).summary = none := by
  simp only [CFieldStatistics.summary, addBody] at h ⊢
  cases hs : self.m_SummaryStatistics with
  | data s => rw [hs] at h; exact Option.noConfusion h
  | categorical s => rfl
  | numeric s => rfl

theorem addFuel_of_summary_none (env : ConfigEnv) (fuel : ℕ) (self : CFieldStatistics)
    (time : ℤ) (exampleText : String) (h : self.summary = none) :
    addFuel env (fuel + 1) self time exampleText = some (addBody self time exampleText) := by
  have hb := addBody_summary_none self time exampleText h
  simp only [addFuel, maybeStartCapturingTypeStatistics]
  simp only [CFieldStatistics.summary] at hb
  by_cases hgt : (addBody self time exampleText).m_NumberExamples >
      (addBody self time exampleText).m_Params.minimumExamplesToClassify
  · rw [if_pos hgt]
    cases hs : (addBody self time exampleText).m_SummaryStatistics with
    | data s => rw [hs] at hb; exact Option.noConfusion hb
    | categorical s => rfl
    | numeric s => rfl
  · rw [if_neg hgt]

theorem replayBuffer_eq_foldl (env : ConfigEnv) (fuel : ℕ) :
    ∀ (steps i : ℕ) (self : CFieldStatistics), self.summary = none →
      self.m_Params.minimumExamplesToClassify ≤ self.m_NumberExamples →
      self.m_Buffer.length - i < steps →
      replayBuffer (addFuel env (fuel + 1)) steps i self =
        some { (self.m_Buffer.drop i).foldl (fun s x => addBody s x.1 x.2) self with
               m_Buffer := [] } := by
  intro steps
  induction steps with
  | zero => intro i self _ _ h; exact absurd h (Nat.not_lt_zero _)
  | succ steps ih =>
    intro i self htyped hmin hsteps
    rw [replayBuffer]
    by_cases hi : i < self.m_Buffer.length
    · rw [dif_pos hi, addFuel_of_summary_none env fuel self _ _ htyped]
      have hbuf : (addBody self (self.m_Buffer.get ⟨i, hi⟩).1
          (self.m_Buffer.get ⟨i, hi⟩).2).m_Buffer = self.m_Buffer :=
        addBody_buffer_of_le self _ _ (by omega)
      have hrec := ih (i + 1)
        (addBody self (self.m_Buffer.get ⟨i, hi⟩).1 (self.m_Buffer.get ⟨i, hi⟩).2)
        (addBody_summary_none self _ _ htyped)
        (by
          show self.m_Params.minimumExamplesToClassify ≤ self.m_NumberExamples + 1
          omega)
        (by rw [hbuf]; omega)
      simp only [] at hrec ⊢
      rw [hrec, hbuf]
      have hdrop : self.m_Buffer.drop i =
          self.m_Buffer.get ⟨i, hi⟩ :: self.m_Buffer.drop (i + 1) := by
        rw [List.get_eq_getElem]
        exact List.drop_eq_getElem_cons hi
      rw [hdrop, List.foldl_cons]
    · rw [dif_neg hi]
      have hdrop : self.m_Buffer.drop i = [] := List.drop_eq_nil_of_le (not_lt.1 hi)
      rw [hdrop, List.foldl_nil]

theorem replayBuffer_eq_replayUnrolled (env : ConfigEnv) (fuel steps : ℕ)
    (self : CFieldStatistics) (htyped : self.summary = none)
    (hmin : self.m_Params.minimumExamplesToClassify ≤ self.m_NumberExamples)
    (hsteps : self.m_Buffer.length < steps) :
    replayBuffer (addFuel env (fuel + 1)) steps 0 self = some (replayUnrolled self) := by
  rw [replayBuffer_eq_foldl env fuel steps 0 self htyped hmin (by omega)]
  rfl

theorem addFuel_eq_addUnrolled (env : ConfigEnv) (fuel : ℕ) (self : CFieldStatistics)
    (time : ℤ) (exampleText : String) (hfuel : self.m_Buffer.length + 3 ≤ fuel) :
    addFuel env fuel self time exampleText = some (addUnrolled env self time exampleText) := by
  obtain ⟨g, rfl⟩ : ∃ g, fuel = g + 1 + 1 := ⟨fuel - 2, by omega⟩
  simp only [addFuel.eq_2, maybeStartCapturingTypeStatistics, addUnrolled]
  by_cases hgt : (addBody self time exampleText).m_NumberExamples >
      (addBody self time exampleText).m_Params.minimumExamplesToClassify
  · rw [if_pos hgt, if_pos hgt]
    have hcount : self.m_Params.minimumExamplesToClassify < self.m_NumberExamples + 1 := hgt
    have hbuf : (addBody self time exampleText).m_Buffer = self.m_Buffer :=
      addBody_buffer_of_le self time exampleText (by omega)
    cases hs : (addBody self time exampleText).m_SummaryStatistics with
    | data summary =>
      simp only []
      split_ifs
      · apply replayBuffer_eq_replayUnrolled
        · rfl
        · exact Nat.le_of_lt hgt
        · show (addBody self time exampleText).m_Buffer.length < g + 1
          rw [hbuf]; omega
      · apply replayBuffer_eq_replayUnrolled
        · rfl
        · exact Nat.le_of_lt hgt
        · show (addBody self time exampleText).m_Buffer.length < g + 1
          rw [hbuf]; omega
      · rfl
    | categorical s => rfl
    | numeric s => rfl
  · rw [if_neg hgt, if_neg hgt]

theorem add_eq_addUnrolled (env : ConfigEnv) (self : CFieldStatistics) (time : ℤ)
    (exampleText : String) :
    add env self time exampleText = some (addUnrolled env self time exampleText) :=
  addFuel_eq_addUnrolled env _ self time exampleText (Nat.le_refl _)

end config

end ml

namespace ml

namespace config

open CFieldStatistics

theorem foldl_addBody_typed :
    ∀ (l : List (ℤ × String)) (self : CFieldStatistics), self.summary = none →
      (l.foldl (fun s x => addBody s x.1 x.2) self).summary = none ∧
      (l.foldl (fun s x => addBody s x.1 x.2) self).typedAdded = self.typedAdded ++ l := by
  intro l
  induction l with
  | nil => intro self h; exact ⟨h, (List.append_nil _).symm⟩
  | cons x xs ih =>
    intro self h
    have hb := addBody_summary_none self x.1 x.2 h
    obtain ⟨h1, h2⟩ := ih (addBody self x.1 x.2) hb
    refine ⟨h1, ?_⟩
    rw [List.foldl_cons, h2]
    have hadd : (addBody self x.1 x.2).typedAdded = self.typedAdded ++ [x] := by
      simp only [CFieldStatistics.summary] at h
      simp only [typedAdded, addBody]
      cases hs : self.m_SummaryStatistics with
      | data s => rw [hs] at h; exact Option.noConfusion h
      | categorical s => rfl
      | numeric s => rfl
    rw [hadd, List.append_assoc]
    rfl

theorem replayUnrolled_typed (self : CFieldStatistics) (h : self.summary = none) :
    (replayUnrolled self).summary = none ∧
    (replayUnrolled self).typedAdded = self.typedAdded ++ self.m_Buffer ∧
    (replayUnrolled self).m_Buffer = [] := by
  obtain ⟨h1, h2⟩ := foldl_addBody_typed self.m_Buffer self h
  exact ⟨h1, h2, rfl⟩

theorem addUnrolled_cases (env : ConfigEnv) (self : CFieldStatistics) (time : ℤ)
    (exampleText : String) :
    (self.summary = none ∧ addUnrolled env self time exampleText = addBody self time exampleText) ∨
    (self.summary ≠ none ∧ (addUnrolled env self time exampleText).summary ≠ none ∧
      (addUnrolled env self time exampleText).m_Buffer = (addBody self time exampleText).m_Buffer ∧
      (addUnrolled env self time exampleText).m_NumberExamples = self.m_NumberExamples + 1 ∧
      (addUnrolled env self time exampleText).m_Params = self.m_Params ∧
      (addUnrolled env self time exampleText).m_SummaryStatistics =
        (addBody self time exampleText).m_SummaryStatistics) ∨
    (self.summary ≠ none ∧ (addUnrolled env self time exampleText).summary = none ∧
      self.m_Params.minimumExamplesToClassify < self.m_NumberExamples + 1 ∧
      (addBody self time exampleText).m_Buffer = self.m_Buffer ∧
      (addUnrolled env self time exampleText).typedAdded = self.m_Buffer ∧
      (addUnrolled env self time exampleText).m_Buffer = []) := by
  cases hs : self.m_SummaryStatistics with
  | categorical s =>
    left
    refine ⟨by simp [CFieldStatistics.summary, hs], ?_⟩
    simp only [addUnrolled]
    have hb : (addBody self time exampleText).m_SummaryStatistics =
        .categorical { s with m_Added := s.m_Added ++ [(time, exampleText)] } := by
      simp [addBody, hs, CAddToStatistics]
    rw [hb]
    split_ifs <;> rfl
  | numeric s =>
    left
    refine ⟨by simp [CFieldStatistics.summary, hs], ?_⟩
    simp only [addUnrolled]
    have hb : (addBody self time exampleText).m_SummaryStatistics =
        .numeric { s with m_Added := s.m_Added ++ [(time, exampleText)] } := by
      simp [addBody, hs, CAddToStatistics]
    rw [hb]
    split_ifs <;> rfl
  | data s =>
    right
    have hne : self.summary ≠ none := by simp [CFieldStatistics.summary, hs]
    have hb : (addBody self time exampleText).m_SummaryStatistics =
        .data { s with m_Times := s.m_Times ++ [time] } := by
      simp [addBody, hs, CAddToStatistics]
    by_cases hgt : (addBody self time exampleText).m_NumberExamples >
        (addBody self time exampleText).m_Params.minimumExamplesToClassify
    · have hcount : self.m_Params.minimumExamplesToClassify < self.m_NumberExamples + 1 := hgt
      have hbuf : (addBody self time exampleText).m_Buffer = self.m_Buffer :=
        addBody_buffer_of_le self time exampleText (by omega)
      by_cases hcat : env.isCategorical (env.computeType
          (addBody self time exampleText).m_Semantics.m_Override
          (addBody self time exampleText).m_Semantics.m_Examples) = true
      · right
        have hu : addUnrolled env self time exampleText = replayUnrolled
            { addBody self time exampleText with
              m_Semantics := { (addBody self time exampleText).m_Semantics with
                m_Type := env.computeType (addBody self time exampleText).m_Semantics.m_Override
                  (addBody self time exampleText).m_Semantics.m_Examples }
              m_SummaryStatistics := .categorical ⟨{ s with m_Times := s.m_Times ++ [time] },
                (addBody self time exampleText).m_Params.numberOfMostFrequentFieldsCounts, []⟩ } := by
          simp only [addUnrolled, if_pos hgt, hb, if_pos hcat]
        obtain ⟨h1, h2, h3⟩ := replayUnrolled_typed
          { addBody self time exampleText with
            m_Semantics := { (addBody self time exampleText).m_Semantics with
              m_Type := env.computeType (addBody self time exampleText).m_Semantics.m_Override
                (addBody self time exampleText).m_Semantics.m_Examples }
            m_SummaryStatistics := .categorical ⟨{ s with m_Times := s.m_Times ++ [time] },
              (addBody self time exampleText).m_Params.numberOfMostFrequentFieldsCounts, []⟩ }
          rfl
        rw [hu]
        refine ⟨hne, h1, hcount, hbuf, ?_, h3⟩
        rw [h2]
        show [] ++ (addBody self time exampleText).m_Buffer = self.m_Buffer
        rw [List.nil_append, hbuf]
      · by_cases hnum : env.isNumeric (env.computeType
            (addBody self time exampleText).m_Semantics.m_Override
            (addBody self time exampleText).m_Semantics.m_Examples) = true
        · right
          have hu : addUnrolled env self time exampleText = replayUnrolled
              { addBody self time exampleText with
                m_Semantics := { (addBody self time exampleText).m_Semantics with
                  m_Type := env.computeType
                    (addBody self time exampleText).m_Semantics.m_Override
                    (addBody self time exampleText).m_Semantics.m_Examples }
                m_SummaryStatistics := .numeric ⟨{ s with m_Times := s.m_Times ++ [time] },
                  env.isInteger (env.computeType
                    (addBody self time exampleText).m_Semantics.m_Override
                    (addBody self time exampleText).m_Semantics.m_Examples), []⟩ } := by
            simp only [addUnrolled, if_pos hgt, hb, if_neg hcat, if_pos hnum]
          obtain ⟨h1, h2, h3⟩ := replayUnrolled_typed
            { addBody self time exampleText with
              m_Semantics := { (addBody self time exampleText).m_Semantics with
                m_Type := env.computeType
                  (addBody self time exampleText).m_Semantics.m_Override
                  (addBody self time exampleText).m_Semantics.m_Examples }
              m_SummaryStatistics := .numeric ⟨{ s with m_Times := s.m_Times ++ [time] },
                env.isInteger (env.computeType
                  (addBody self time exampleText).m_Semantics.m_Override
                  (addBody self time exampleText).m_Semantics.m_Examples), []⟩ }
            rfl
          rw [hu]
          refine ⟨hne, h1, hcount, hbuf, ?_, h3⟩
          rw [h2]
          show [] ++ (addBody self time exampleText).m_Buffer = self.m_Buffer
          rw [List.nil_append, hbuf]
        · left
          have hu : addUnrolled env self time exampleText =
              { addBody self time exampleText with
                m_Semantics := { (addBody self time exampleText).m_Semantics with
                  m_Type := env.computeType
                    (addBody self time exampleText).m_Semantics.m_Override
                    (addBody self time exampleText).m_Semantics.m_Examples } } := by
            simp only [addUnrolled, if_pos hgt, hb, if_neg hcat, if_neg hnum]
          rw [hu]
          refine ⟨hne, ?_, rfl, rfl, rfl, rfl⟩
          simp [CFieldStatistics.summary, hb]
    · left
      have hu : addUnrolled env self time exampleText = addBody self time exampleText := by
        simp only [addUnrolled, if_neg hgt]
      rw [hu]
      refine ⟨hne, ?_, rfl, rfl, rfl, rfl⟩
      simp [CFieldStatistics.summary, hb]

end config

end ml

namespace ml

namespace config

open CFieldStatistics

theorem foldl_addBody_params :
    ∀ (l : List (ℤ × String)) (self : CFieldStatistics),
      (l.foldl (fun s x => addBody s x.1 x.2) self).m_Params = self.m_Params := by
  intro l
  induction l with
  | nil => intro self; rfl
  | cons x xs ih => intro self; rw [List.foldl_cons, ih]; rfl

theorem addUnrolled_params (env : ConfigEnv) (self : CFieldStatistics) (time : ℤ)
    (exampleText : String) :
    (addUnrolled env self time exampleText).m_Params = self.m_Params := by
  by_cases hgt : (addBody self time exampleText).m_NumberExamples >
      (addBody self time exampleText).m_Params.minimumExamplesToClassify
  · cases hs : (addBody self time exampleText).m_SummaryStatistics with
    | data summary =>
      by_cases hcat : env.isCategorical (env.computeType
          (addBody self time exampleText).m_Semantics.m_Override
          (addBody self time exampleText).m_Semantics.m_Examples) = true
      · simp only [addUnrolled, if_pos hgt, hs, if_pos hcat]
        exact foldl_addBody_params _ _
      · by_cases hnum : env.isNumeric (env.computeType
            (addBody self time exampleText).m_Semantics.m_Override
            (addBody self time exampleText).m_Semantics.m_Examples) = true
        · simp only [addUnrolled, if_pos hgt, hs, if_neg hcat, if_pos hnum]
          exact foldl_addBody_params _ _
        · simp only [addUnrolled, if_pos hgt, hs, if_neg hcat, if_neg hnum]
          rfl
    | categorical summary =>
      simp only [addUnrolled, if_pos hgt, hs]
      rfl
    | numeric summary =>
      simp only [addUnrolled, if_pos hgt, hs]
      rfl
  · simp only [addUnrolled, if_neg hgt]
    rfl

theorem addAll_base_invariant (env : ConfigEnv) :
    ∀ (xs done : List (ℤ × String)) (self last : CFieldStatistics),
      addAll env self xs = some last →
      (self.summary ≠ none →
        self.m_Buffer = done.take (self.m_Params.minimumExamplesToClassify - 1) ∧
        self.m_NumberExamples = done.length) →
      last.m_Params = self.m_Params ∧
      (last.summary ≠ none →
        last.m_Buffer = (done ++ xs).take (self.m_Params.minimumExamplesToClassify - 1) ∧
        last.m_NumberExamples = (done ++ xs).length) := by
  intro xs
  induction xs with
  | nil =>
    intro done self last hall hinv
    simp only [addAll, Option.some.injEq] at hall
    subst hall
    simpa using hinv
  | cons x xs ih =>
    intro done self last hall hinv
    simp only [addAll, add_eq_addUnrolled] at hall
    have hpar := addUnrolled_params env self x.1 x.2
    have hstep : (addUnrolled env self x.1 x.2).summary ≠ none →
        (addUnrolled env self x.1 x.2).m_Buffer =
          (done ++ [x]).take
            ((addUnrolled env self x.1 x.2).m_Params.minimumExamplesToClassify - 1) ∧
        (addUnrolled env self x.1 x.2).m_NumberExamples = (done ++ [x]).length := by
      intro hbase
      rw [hpar]
      rcases addUnrolled_cases env self x.1 x.2 with ⟨htyped, heq⟩ | ⟨hne, _, hbuf, hcount, _, _⟩ |
        ⟨_, hnone, _⟩
      · rw [heq] at hbase
        exact absurd (addBody_summary_none self x.1 x.2 htyped) hbase
      · obtain ⟨hb, hc⟩ := hinv hne
        refine ⟨?_, by rw [hcount, hc, List.length_append]; rfl⟩
        rw [hbuf]
        simp only [addBody]
        split_ifs with hlt
        · have hlen : done.length + 1 < self.m_Params.minimumExamplesToClassify := by
            rw [← hc]; exact hlt
          rw [hb, List.take_of_length_le (by omega),
            List.take_of_length_le (by rw [List.length_append]; simp; omega)]
        · have hlen : ¬ done.length + 1 < self.m_Params.minimumExamplesToClassify := by
            rw [← hc]; exact hlt
          rw [hb, List.take_append_of_le_length (by omega)]
      · exact absurd hnone hbase
    obtain ⟨h1, h2⟩ := ih (done ++ [x]) _ last hall hstep
    rw [hpar] at h1 h2
    refine ⟨h1, ?_⟩
    intro hl
    have := h2 hl
    simpa [List.append_assoc] using this

/-- C11 as stated fails: with `minimumExamplesToClassify = 2` the examples
`(1, "a")` and `(2, "b")` are added while the summary is of the base kind and
the add of `(3, "c")` switches it to categorical; at that switch the buffer
holds `(1, "a")` only, so `(2, "b")` is not replayed to the categorical
summary. -/
theorem second_example_is_not_buffered :
    ((addAll sampleConfigEnv (create sampleConfigEnv "field" sampleParams)
        [(1, "a"), (2, "b")]).map fun s => (s.summary.isSome, s.m_Buffer))
      = some (true, [(1, "a")]) ∧
    ((addAll sampleConfigEnv (create sampleConfigEnv "field" sampleParams)
        [(1, "a"), (2, "b"), (3, "c")]).map
          fun s => (s.categoricalSummary.isSome, s.typedAdded, s.m_Buffer))
      = some (true, [(1, "a")], []) ∧
    ((2 : ℤ), "b") ∉ [((1 : ℤ), "a")] := by
  decide

/-- C11, amended: take any sequence of `add` calls on a constructed
`CFieldStatistics` that leaves the summary of the base kind, and a next `add`
that switches it to the categorical or the numeric kind. At the switch the
buffer holds, in order of arrival, the examples that were added while the
number of examples, the added one included, was below
`minimumExamplesToClassify` (the first `minimumExamplesToClassify - 1`
examples); `replayBuffer` passes exactly these pairs, in that order, to the
typed summary, and leaves the buffer empty. -/
theorem buffered_examples_are_replayed (env : ConfigEnv) (fieldName : String)
    (params : CAutoconfigurerParams) (xs : List (ℤ × String)) (time : ℤ)
    (exampleText : String) (before after : CFieldStatistics)
    (hxs : addAll env (create env fieldName params) xs = some before)
    (hbase : before.summary ≠ none)
    (hadd : add env before time exampleText = some after)
    (hswitch : after.summary = none) :
    params.minimumExamplesToClassify ≤ xs.length ∧
    before.m_Buffer = xs.take (params.minimumExamplesToClassify - 1) ∧
    (addBody before time exampleText).m_Buffer = before.m_Buffer ∧
    after.typedAdded = xs.take (params.minimumExamplesToClassify - 1) ∧
    after.m_Buffer = [] := by
  obtain ⟨hpar, hinv⟩ := addAll_base_invariant env xs [] (create env fieldName params) before
    hxs (fun _ => ⟨by simp [create], rfl⟩)
  have hpar2 : before.m_Params = params := hpar
  obtain ⟨hbuf, hcount⟩ := hinv hbase
  simp only [List.nil_append] at hbuf hcount
  have hbuf2 : before.m_Buffer = xs.take (params.minimumExamplesToClassify - 1) := hbuf
  rw [add_eq_addUnrolled, Option.some.injEq] at hadd
  subst hadd
  rcases addUnrolled_cases env before time exampleText with ⟨htyped, _⟩ | ⟨_, hne, _⟩ |
    ⟨_, _, hgt, hb, hadded, hempty⟩
  · exact absurd htyped hbase
  · exact absurd hswitch hne
  · rw [hpar2, hcount] at hgt
    exact ⟨by omega, hbuf2, hb, by rw [hadded, hbuf2], hempty⟩

/-- Witness of the amended C11: the three adds of the example with
`minimumExamplesToClassify = 2`. -/
theorem buffered_examples_are_replayed_witness :
    sampleParams.minimumExamplesToClassify ≤ [((1 : ℤ), "a"), ((2 : ℤ), "b")].length ∧
    (addUnrolled sampleConfigEnv
        (addUnrolled sampleConfigEnv (create sampleConfigEnv "field" sampleParams) 1 "a")
        2 "b").m_Buffer =
      [((1 : ℤ), "a"), ((2 : ℤ), "b")].take (sampleParams.minimumExamplesToClassify - 1) ∧
    (addBody (addUnrolled sampleConfigEnv
        (addUnrolled sampleConfigEnv (create sampleConfigEnv "field" sampleParams) 1 "a")
        2 "b") 3 "c").m_Buffer =
      (addUnrolled sampleConfigEnv
        (addUnrolled sampleConfigEnv (create sampleConfigEnv "field" sampleParams) 1 "a")
        2 "b").m_Buffer ∧
    (addUnrolled sampleConfigEnv (addUnrolled sampleConfigEnv
        (addUnrolled sampleConfigEnv (create sampleConfigEnv "field" sampleParams) 1 "a")
        2 "b") 3 "c").typedAdded =
      [((1 : ℤ), "a"), ((2 : ℤ), "b")].take (sampleParams.minimumExamplesToClassify - 1) ∧
    (addUnrolled sampleConfigEnv (addUnrolled sampleConfigEnv
        (addUnrolled sampleConfigEnv (create sampleConfigEnv "field" sampleParams) 1 "a")
        2 "b") 3 "c").m_Buffer = [] :=
  buffered_examples_are_replayed sampleConfigEnv "field" sampleParams [(1, "a"), (2, "b")] 3 "c"
    (addUnrolled sampleConfigEnv
      (addUnrolled sampleConfigEnv (create sampleConfigEnv "field" sampleParams) 1 "a") 2 "b")
    (addUnrolled sampleConfigEnv (addUnrolled sampleConfigEnv
      (addUnrolled sampleConfigEnv (create sampleConfigEnv "field" sampleParams) 1 "a")
      2 "b") 3 "c")
    (by simp only [addAll, add_eq_addUnrolled])
    (by decide)
    (add_eq_addUnrolled _ _ _ _)
    (by decide)

end config

end ml

namespace ml

namespace config

open CFieldStatistics

theorem foldl_addBody_categorical :
    ∀ (l : List (ℤ × String)) (self : CFieldStatistics) (c : CCategoricalDataSummaryStatistics),
      self.m_SummaryStatistics = .categorical c →
      (l.foldl (fun s x => addBody s x.1 x.2) self).m_SummaryStatistics =
        .categorical { c with m_Added := c.m_Added ++ l } := by
  intro l
  induction l with
  | nil => intro self c h; simpa using h
  | cons x xs ih =>
    intro self c h
    have hb : (addBody self x.1 x.2).m_SummaryStatistics =
        .categorical { c with m_Added := c.m_Added ++ [x] } := by
      simp [addBody, h, CAddToStatistics]
    rw [List.foldl_cons, ih _ _ hb]
    simp

theorem foldl_addBody_numeric :
    ∀ (l : List (ℤ × String)) (self : CFieldStatistics) (n : CNumericDataSummaryStatistics),
      self.m_SummaryStatistics = .numeric n →
      (l.foldl (fun s x => addBody s x.1 x.2) self).m_SummaryStatistics =
        .numeric { n with m_Added := n.m_Added ++ l } := by
  intro l
  induction l with
  | nil => intro self n h; simpa using h
  | cons x xs ih =>
    intro self n h
    have hb : (addBody self x.1 x.2).m_SummaryStatistics =
        .numeric { n with m_Added := n.m_Added ++ [x] } := by
      simp [addBody, h, CAddToStatistics]
    rw [List.foldl_cons, ih _ _ hb]
    simp

/-- C12: the summary is a tagged union. In every state exactly one of
`summary()`, `categoricalSummary()` and `numericSummary()` is non-null, and it
is `summary()` right after construction. Every `add(time, example)` returns,
and its dispatch reaches the kind that is active at the call only: a
categorical or numeric summary gets the pair `(time, example)` as its next
add, and a base summary gets `time` as its next add, where the summary after
the call is that base summary or a typed summary constructed from it. -/
theorem summary_is_a_tagged_union (env : ConfigEnv) (self : CFieldStatistics) (time : ℤ)
    (exampleText : String) :
    ((self.summary.isSome = true ∧ self.categoricalSummary = none ∧
        self.numericSummary = none) ∨
      (self.summary = none ∧ self.categoricalSummary.isSome = true ∧
        self.numericSummary = none) ∨
      (self.summary = none ∧ self.categoricalSummary = none ∧
        self.numericSummary.isSome = true)) ∧
    (∀ fieldName params, (create env fieldName params).summary = some ⟨[]⟩) ∧
    (∃ after, add env self time exampleText = some after ∧
      (∀ s, self.m_SummaryStatistics = .data s →
        after.summary = some ⟨s.m_Times ++ [time]⟩ ∨
        (∃ c, after.categoricalSummary = some c ∧ c.m_Summary = ⟨s.m_Times ++ [time]⟩) ∨
        (∃ n, after.numericSummary = some n ∧ n.m_Summary = ⟨s.m_Times ++ [time]⟩)) ∧
      (∀ c, self.m_SummaryStatistics = .categorical c →
        after.m_SummaryStatistics =
          .categorical { c with m_Added := c.m_Added ++ [(time, exampleText)] }) ∧
      (∀ n, self.m_SummaryStatistics = .numeric n →
        after.m_SummaryStatistics =
          .numeric { n with m_Added := n.m_Added ++ [(time, exampleText)] })) := by
  refine ⟨?_, fun _ _ => rfl, addUnrolled env self time exampleText,
    add_eq_addUnrolled env self time exampleText, ?_, ?_, ?_⟩
  · cases hs : self.m_SummaryStatistics with
    | data s => left; simp [CFieldStatistics.summary, categoricalSummary, numericSummary, hs]
    | categorical s =>
      right; left; simp [CFieldStatistics.summary, categoricalSummary, numericSummary, hs]
    | numeric s =>
      right; right; simp [CFieldStatistics.summary, categoricalSummary, numericSummary, hs]
  · intro s hs
    have hb : (addBody self time exampleText).m_SummaryStatistics =
        .data ⟨s.m_Times ++ [time]⟩ := by
      simp [addBody, hs, CAddToStatistics]
    by_cases hgt : (addBody self time exampleText).m_NumberExamples >
        (addBody self time exampleText).m_Params.minimumExamplesToClassify
    · by_cases hcat : env.isCategorical (env.computeType
          (addBody self time exampleText).m_Semantics.m_Override
          (addBody self time exampleText).m_Semantics.m_Examples) = true
      · right; left
        simp only [addUnrolled, if_pos hgt, hb, if_pos hcat, replayUnrolled, categoricalSummary]
        rw [foldl_addBody_categorical _ _ _ rfl]
        exact ⟨_, rfl, rfl⟩
      · by_cases hnum : env.isNumeric (env.computeType
            (addBody self time exampleText).m_Semantics.m_Override
            (addBody self time exampleText).m_Semantics.m_Examples) = true
        · right; right
          simp only [addUnrolled, if_pos hgt, hb, if_neg hcat, if_pos hnum, replayUnrolled,
            numericSummary]
          rw [foldl_addBody_numeric _ _ _ rfl]
          exact ⟨_, rfl, rfl⟩
        · left
          simp only [addUnrolled, if_pos hgt, hb, if_neg hcat, if_neg hnum,
            CFieldStatistics.summary]
    · left
      simp only [addUnrolled, if_neg hgt, CFieldStatistics.summary, hb]
  · intro c hc
    rcases addUnrolled_cases env self time exampleText with ⟨_, heq⟩ | ⟨hne, _⟩ | ⟨hne, _⟩
    · rw [heq]
      simp [addBody, hc, CAddToStatistics]
    · exact absurd (by simp [CFieldStatistics.summary, hc]) hne
    · exact absurd (by simp [CFieldStatistics.summary, hc]) hne
  · intro n hn
    rcases addUnrolled_cases env self time exampleText with ⟨_, heq⟩ | ⟨hne, _⟩ | ⟨hne, _⟩
    · rw [heq]
      simp [addBody, hn, CAddToStatistics]
    · exact absurd (by simp [CFieldStatistics.summary, hn]) hne
    · exact absurd (by simp [CFieldStatistics.summary, hn]) hne

/-- Witness of C12: the first `add` on a constructed `CFieldStatistics`, whose
summary is of the base kind, passes the time 1 to the base summary. -/
theorem summary_is_a_tagged_union_witness :
    ∃ after, add sampleConfigEnv (create sampleConfigEnv "field" sampleParams) 1 "a"
        = some after ∧
      (after.summary = some ⟨[] ++ [1]⟩ ∨
        (∃ c, after.categoricalSummary = some c ∧ c.m_Summary = ⟨[] ++ [1]⟩) ∨
        (∃ n, after.numericSummary = some n ∧ n.m_Summary = ⟨[] ++ [1]⟩)) :=
  match (summary_is_a_tagged_union sampleConfigEnv
      (create sampleConfigEnv "field" sampleParams) 1 "a").2.2 with
  | ⟨after, hadd, hdata, _, _⟩ => ⟨after, hadd, hdata ⟨[]⟩ rfl⟩

end config

end ml
